import Mathlib

/-!
Verification of the tool-call orchestration loop of
`src/tool_use/function_calling_library.py` (classes `ToolManager` and
`ConversationHandler`) together with the example tool `get_weather`
(`src/tool_use/test2.py` / `src/tool_use/weather_tool.py`).

The Python code is shallowly embedded: JSON values are an inductive type,
`json.loads` / `json.dumps` are executable Lean functions, the two regular
expressions used by the library are compiled by hand into deterministic
search functions (their backtracking is forced, as argued in the doc
comments), and `ConversationHandler.run` becomes a pure function from an
inference-endpoint oracle to a trace of the exchanges, tool invocations
and the final outcome.
-/

/-- Characters accepted by Python's `str.strip()` and by `\s` in a `re`
pattern over `str` (the common ASCII/Latin-1 part of the Unicode whitespace
set; the claims only exercise space and newline). -/
def isPySpace (c : Char) : Bool :=
  [' ', '\t', '\n', '\x0d', '\x0b', '\x0c', '\x1c', '\x1d', '\x1e', '\x1f',
   '\x85', '\xa0'].contains c

/-- JSON whitespace as skipped by Python's `json` scanner: exactly
space, tab, newline and carriage return. -/
def isJsonWs (c : Char) : Bool :=
  [' ', '\t', '\n', '\x0d'].contains c

/-- Python `str.strip()`: remove leading and trailing whitespace. -/
def pyStrip (s : String) : String :=
  String.mk (((s.toList.dropWhile isPySpace).reverse.dropWhile isPySpace).reverse)

/-- Python `str.lower()` restricted to ASCII letters (the embedded code only
lowercases city names such as "Tokyo"). -/
def pyLower (s : String) : String :=
  String.mk (s.toList.map Char.toLower)

/-- Python `needle in hay` on strings: contiguous substring test. -/
def listContainsSub (needle : List Char) : List Char → Bool
  | [] => needle.isEmpty
  | c :: t => needle.isPrefixOf (c :: t) || listContainsSub needle t

/-- String version of the Python substring test `needle in hay`. -/
def strContainsSub (needle hay : String) : Bool :=
  listContainsSub needle.toList hay.toList

/-- JSON values as produced by Python's `json.loads`.  Numbers keep their
source lexeme (the claims never compute with numeric values, so the
float/int distinction of Python is kept symbolic). -/
inductive Json where
  | null : Json
  | bool (b : Bool) : Json
  | num (lexeme : String) : Json
  | str (s : String) : Json
  | arr (elems : List Json) : Json
  | obj (members : List (String × Json)) : Json

/-- Python `dict` update `d[k] = v`: an existing key keeps its position and
gets the new value, a fresh key is appended.  Used both for the dictionaries
built by `json.loads` (duplicate keys: last one wins) and for the two
registries of `ToolManager`. -/
def insertKV {α : Type} : List (String × α) → String → α → List (String × α)
  | [], k, v => [(k, v)]
  | (k2, v2) :: t, k, v =>
    if k2 = k then (k, v) :: t else (k2, v2) :: insertKV t k v

/-- Lookup in an association list (Python `d[k]` / `k in d` on a dict whose
entries were built with `insertKV`, so keys are unique). -/
def lookupKV {α : Type} : List (String × α) → String → Option α
  | [], _ => none
  | (k2, v) :: t, k => if k2 = k then some v else lookupKV t k

/-- Python `tool_call.get(key)` on a parsed JSON value: `none` when the key
is absent.  `_parse_tool_call` only ever returns objects (see
`parse_tool_call_obj`), so the non-object arm is unreachable in `run`. -/
def Json.get : Json → String → Option Json
  | .obj ms, k => lookupKV ms k
  | _, _ => none

/-- Python `tool_call.get(key, default)`. -/
def Json.getD (j : Json) (k : String) (d : Json) : Json :=
  match j.get k with
  | some v => v
  | none => d

/-- Python truthiness of a number lexeme: `0`, `-0`, `0.0`, `0e5` … are
falsy.  A lexeme denotes zero exactly when its mantissa digits are all 0. -/
def numLexemeIsZero (s : String) : Bool :=
  (s.toList.takeWhile (fun c => c ≠ 'e' ∧ c ≠ 'E')).all
    (fun c => !c.isDigit || c = '0')

/-- Python truthiness of a parsed JSON value (`if tool_call and …`):
empty dict/list/string, zero, `False` and `None` are falsy. -/
def Json.truthy : Json → Bool
  | .null => false
  | .bool b => b
  | .num s => !numLexemeIsZero s
  | .str s => s ≠ ""
  | .arr xs => !xs.isEmpty
  | .obj ms => !ms.isEmpty

/-- Lowercase hexadecimal digit, as emitted by `json.dumps` in `\uXXXX`
escapes. -/
def hexDig (n : Nat) : Char :=
  if n < 10 then Char.ofNat (48 + n) else Char.ofNat (87 + n)

/-- Four-digit lowercase hexadecimal rendering of `n < 0x10000`. -/
def toHex4 (n : Nat) : List Char :=
  [hexDig (n / 4096 % 16), hexDig (n / 256 % 16), hexDig (n / 16 % 16),
   hexDig (n % 16)]

/-- Value of a hexadecimal digit character (either case), as accepted by
Python's `json` string scanner. -/
def hexVal (c : Char) : Option Nat :=
  if '0' ≤ c ∧ c ≤ '9' then some (c.toNat - 48)
  else if 'a' ≤ c ∧ c ≤ 'f' then some (c.toNat - 87)
  else if 'A' ≤ c ∧ c ≤ 'F' then some (c.toNat - 55)
  else none

/-- Escape of one character inside a JSON string, following
`json.dumps` with its default `ensure_ascii=True`: printable ASCII other
than quote and backslash is kept, the two-character escapes are used for
the usual control characters, every other character becomes `\uXXXX`
(a surrogate pair beyond the BMP). -/
def escChar (c : Char) : List Char :=
  if c = '"' then ['\\', '"']
  else if c = '\\' then ['\\', '\\']
  else if c = '\n' then ['\\', 'n']
  else if c = '\x0d' then ['\\', 'r']
  else if c = '\t' then ['\\', 't']
  else if c = '\x08' then ['\\', 'b']
  else if c = '\x0c' then ['\\', 'f']
  else if 32 ≤ c.toNat ∧ c.toNat ≤ 126 then [c]
  else if c.toNat < 65536 then '\\' :: 'u' :: toHex4 c.toNat
  else
    '\\' :: 'u' :: toHex4 (55296 + (c.toNat - 65536) / 1024) ++
      ('\\' :: 'u' :: toHex4 (56320 + (c.toNat - 65536) % 1024))

/-- Escapes of a character list (body of a JSON string literal). -/
def escList : List Char → List Char
  | [] => []
  | c :: t => escChar c ++ escList t

/-- A JSON string literal for `s`, quotes included (`json.dumps` on a
Python `str`). -/
def quoteStr (s : String) : String :=
  String.mk ('"' :: escList s.toList ++ ['"'])

mutual

/-- Python `json.dumps(v)` with default separators `", "` and `": "`
(used by `get_weather` for its mock payloads). -/
def dumpsC : Json → String
  | .null => "null"
  | .bool true => "true"
  | .bool false => "false"
  | .num s => s
  | .str s => quoteStr s
  | .arr xs => "[" ++ dumpsCElems xs ++ "]"
  | .obj ms => "\x7b" ++ dumpsCMembers ms ++ "\x7d"

/-- Comma-separated compact rendering of array elements. -/
def dumpsCElems : List Json → String
  | [] => ""
  | [x] => dumpsC x
  | x :: y :: rest => dumpsC x ++ ", " ++ dumpsCElems (y :: rest)

/-- Comma-separated compact rendering of object members. -/
def dumpsCMembers : List (String × Json) → String
  | [] => ""
  | [(k, v)] => quoteStr k ++ ": " ++ dumpsC v
  | (k, v) :: m :: rest =>
    quoteStr k ++ ": " ++ dumpsC v ++ ", " ++ dumpsCMembers (m :: rest)

end

/-- Indentation prefix used by `json.dumps(…, indent=4)` at nesting
level `lvl`. -/
def pad (lvl : Nat) : String :=
  String.mk (List.replicate (4 * lvl) ' ')

mutual

/-- Python `json.dumps(v, indent=4)` at nesting level `lvl` (with the
separators `(',', ': ')` that are the default whenever `indent` is given). -/
def dumpsInd (lvl : Nat) : Json → String
  | .null => "null"
  | .bool true => "true"
  | .bool false => "false"
  | .num s => s
  | .str s => quoteStr s
  | .arr xs => dumpsIndArr lvl xs
  | .obj ms => dumpsIndObj lvl ms

/-- Rendering of an array under `indent=4`; an empty array stays on one
line, as in Python. -/
def dumpsIndArr (lvl : Nat) : List Json → String
  | [] => "[]"
  | x :: xs =>
    "[\n" ++ pad (lvl + 1) ++ dumpsInd (lvl + 1) x ++
      dumpsIndElemsRest (lvl + 1) xs ++ "\n" ++ pad lvl ++ "]"

/-- Remaining elements of a non-empty array under `indent=4`, each preceded
by the item separator `",\n" ++ pad lvl`. -/
def dumpsIndElemsRest (lvl : Nat) : List Json → String
  | [] => ""
  | y :: rest =>
    ",\n" ++ pad lvl ++ dumpsInd lvl y ++ dumpsIndElemsRest lvl rest

/-- Rendering of an object under `indent=4`; an empty object stays on one
line, as in Python. -/
def dumpsIndObj (lvl : Nat) : List (String × Json) → String
  | [] => "\x7b\x7d"
  | (k, v) :: ms =>
    "\x7b\n" ++ pad (lvl + 1) ++ quoteStr k ++ ": " ++
      dumpsInd (lvl + 1) v ++ dumpsIndMembersRest (lvl + 1) ms ++ "\n" ++
      pad lvl ++ "\x7d"

/-- Remaining members of a non-empty object under `indent=4`. -/
def dumpsIndMembersRest (lvl : Nat) : List (String × Json) → String
  | [] => ""
  | (k, v) :: rest =>
    ",\n" ++ pad lvl ++ quoteStr k ++ ": " ++ dumpsInd lvl v ++
      dumpsIndMembersRest lvl rest

end

/-- Python `json.dumps(v, indent=4)` as called in `ConversationHandler.run`
(line 162 of `function_calling_library.py`). -/
def dumpsInd4 (v : Json) : String :=
  dumpsInd 0 v

/-- Character produced by a `\uXXXX` escape (or by a combined surrogate
pair).  Python strings may hold lone surrogates, which Lean `Char` cannot;
those map to NUL here — `json.dumps` never emits a lone surrogate, so the
divergence is invisible to every claim. -/
def jsonChar (n : Nat) : Char :=
  Char.ofNat n

/-- Four hexadecimal digits, as read by CPython's `_decode_uXXXX`:
`none` models the `JSONDecodeError` it raises on malformed hex. -/
def parseHex4 : List Char → Option (Nat × List Char)
  | h1 :: h2 :: h3 :: h4 :: rest =>
    match hexVal h1, hexVal h2, hexVal h3, hexVal h4 with
    | some a, some b, some c, some d => some (4096 * a + 256 * b + 16 * c + d, rest)
    | _, _, _, _ => none
  | _ => none

/-- Body of a JSON string literal, after the opening quote, as scanned by
Python's `json` decoder in its default strict mode: raw control characters
are rejected, the two-character escapes and `\uXXXX` (with surrogate-pair
combination, exactly as in CPython's `py_scanstring`) are decoded, and the
scan ends at the closing quote, returning the decoded string and the rest
of the input.  A lone high surrogate whose successor escape is not a low
surrogate is emitted alone and the successor is rescanned, as in CPython.
The fuel only bounds the loop count; every iteration consumes at least one
input character, so the `length + 1` fuel passed by `parseStringAt` can
never be exhausted first. -/
def parseStringBody : Nat → List Char → List Char → Option (String × List Char)
  | 0, _, _ => none
  | _ + 1, _, [] => none
  | fl + 1, acc, c :: rest =>
    if c = '"' then some (String.mk acc, rest)
    else if c = '\\' then
      match rest with
      | [] => none
      | e :: rest2 =>
        if e = '"' then parseStringBody fl (acc ++ ['"']) rest2
        else if e = '\\' then parseStringBody fl (acc ++ ['\\']) rest2
        else if e = '/' then parseStringBody fl (acc ++ ['/']) rest2
        else if e = 'b' then parseStringBody fl (acc ++ ['\x08']) rest2
        else if e = 'f' then parseStringBody fl (acc ++ ['\x0c']) rest2
        else if e = 'n' then parseStringBody fl (acc ++ ['\n']) rest2
        else if e = 'r' then parseStringBody fl (acc ++ ['\x0d']) rest2
        else if e = 't' then parseStringBody fl (acc ++ ['\t']) rest2
        else if e = 'u' then
          match parseHex4 rest2 with
          | none => none
          | some (n, rest3) =>
            if 55296 ≤ n ∧ n ≤ 56319 then
              match rest3 with
              | b1 :: u1 :: rest3x =>
                if b1 = '\\' ∧ u1 = 'u' then
                  match parseHex4 rest3x with
                  | none => none
                  | some (m, rest4) =>
                    if 56320 ≤ m ∧ m ≤ 57343 then
                      parseStringBody fl
                        (acc ++ [jsonChar (65536 + (n - 55296) * 1024 + (m - 56320))])
                        rest4
                    else parseStringBody fl (acc ++ [jsonChar n]) rest3
                else parseStringBody fl (acc ++ [jsonChar n]) rest3
              | _ => parseStringBody fl (acc ++ [jsonChar n]) rest3
            else parseStringBody fl (acc ++ [jsonChar n]) rest3
        else none
    else if c.toNat < 32 then none
    else parseStringBody fl (acc ++ [c]) rest

/-- JSON string literal scan entered right after the opening quote, with
adequate fuel. -/
def parseStringAt (l : List Char) : Option (String × List Char) :=
  parseStringBody (l.length + 1) [] l

/-- Digit span of a character list. -/
def takeDigits (l : List Char) : List Char × List Char :=
  (l.takeWhile Char.isDigit, l.dropWhile Char.isDigit)

/-- Integer part of Python's JSON `NUMBER_RE`: `0` or a nonzero digit
followed by digits. -/
def numIntPart : List Char → Option (String × List Char)
  | '0' :: t => some ("0", t)
  | c :: t =>
    if c.isDigit then
      let p := takeDigits (c :: t)
      some (String.mk p.1, p.2)
    else none
  | [] => none

/-- Optional fraction part `(\.\d+)?`: consumed only when the dot is
followed by at least one digit. -/
def numFracPart (l : List Char) : String × List Char :=
  match l with
  | '.' :: t =>
    match takeDigits t with
    | ([], _) => ("", l)
    | (ds, r) => (String.mk ('.' :: ds), r)
  | _ => ("", l)

/-- Optional exponent part `([eE][-+]?\d+)?`: consumed only when the
digits are present. -/
def numExpPart (l : List Char) : String × List Char :=
  match l with
  | e :: t =>
    if e = 'e' ∨ e = 'E' then
      let p : String × List Char :=
        match t with
        | '+' :: u => ("+", u)
        | '-' :: u => ("-", u)
        | _ => ("", t)
      match takeDigits p.2 with
      | ([], _) => ("", l)
      | (ds, r) => (String.mk (e :: p.1.toList ++ ds), r)
    else ("", l)
  | [] => ("", l)

/-- A JSON number matched by Python's `NUMBER_RE`
`(-?(?:0|[1-9]\d*))(\.\d+)?([eE][-+]?\d+)?`; the lexeme is kept verbatim. -/
def parseNumber (l : List Char) : Option (Json × List Char) :=
  let sl : String × List Char :=
    match l with
    | '-' :: t => ("-", t)
    | _ => ("", l)
  match numIntPart sl.2 with
  | none => none
  | some (ip, r1) =>
    let f := numFracPart r1
    let e := numExpPart f.2
    some (.num (sl.1 ++ ip ++ f.1 ++ e.1), e.2)

mutual

/-- One JSON value, scanned as by Python's `json` scanner (`py_make_scanner`
dispatch: string, object, array, the three keyword constants, `NUMBER_RE`,
then `NaN` / `Infinity` / `-Infinity`).  Leading JSON whitespace is
skipped.  The fuel only bounds the recursion depth and loop count; it is
instantiated with the input length in `jsonLoads`, which always suffices
because every recursive call consumes at least one input character. -/
def parseVal : Nat → List Char → Option (Json × List Char)
  | 0, _ => none
  | f + 1, l =>
    match l.dropWhile isJsonWs with
    | [] => none
    | c :: rest =>
      if c = '"' then
        match parseStringAt rest with
        | some (s, r) => some (.str s, r)
        | none => none
      else if c = '\x7b' then
        match rest.dropWhile isJsonWs with
        | '\x7d' :: r2 => some (.obj [], r2)
        | _ => parseMembers f [] rest
      else if c = '[' then
        match rest.dropWhile isJsonWs with
        | ']' :: r2 => some (.arr [], r2)
        | _ => parseElems f [] rest
      else if "true".toList.isPrefixOf (c :: rest) then
        some (.bool true, rest.drop 3)
      else if "false".toList.isPrefixOf (c :: rest) then
        some (.bool false, rest.drop 4)
      else if "null".toList.isPrefixOf (c :: rest) then
        some (.null, rest.drop 3)
      else
        match parseNumber (c :: rest) with
        | some r => some r
        | none =>
          if "NaN".toList.isPrefixOf (c :: rest) then
            some (.num "NaN", rest.drop 2)
          else if "Infinity".toList.isPrefixOf (c :: rest) then
            some (.num "Infinity", rest.drop 7)
          else if "-Infinity".toList.isPrefixOf (c :: rest) then
            some (.num "-Infinity", rest.drop 8)
          else none

/-- Elements of a non-empty JSON array, starting right after `[` (or after
a comma); the accumulated prefix is passed along. -/
def parseElems : Nat → List Json → List Char → Option (Json × List Char)
  | 0, _, _ => none
  | f + 1, acc, l =>
    match parseVal f l with
    | none => none
    | some (v, r) =>
      match r.dropWhile isJsonWs with
      | ',' :: r2 => parseElems f (acc ++ [v]) r2
      | ']' :: r2 => some (.arr (acc ++ [v]), r2)
      | _ => none

/-- Members of a non-empty JSON object, starting right after `\x7b` (or
after a comma).  Members land in a Python dict, so duplicate keys follow
`insertKV` (last value wins, first position kept). -/
def parseMembers : Nat → List (String × Json) → List Char →
    Option (Json × List Char)
  | 0, _, _ => none
  | f + 1, acc, l =>
    match l.dropWhile isJsonWs with
    | '"' :: r =>
      match parseStringAt r with
      | none => none
      | some (k, r2) =>
        match r2.dropWhile isJsonWs with
        | ':' :: r4 =>
          match parseVal f r4 with
          | none => none
          | some (v, r5) =>
            match r5.dropWhile isJsonWs with
            | ',' :: r7 => parseMembers f (insertKV acc k v) r7
            | '\x7d' :: r7 => some (.obj (insertKV acc k v), r7)
            | _ => none
        | _ => none
    | _ => none

end

/-- Python `json.loads`: scan one value after leading whitespace and demand
that only whitespace follows; `none` is a `json.JSONDecodeError`. -/
def jsonLoads (s : String) : Option Json :=
  match parseVal (s.length + 1) s.toList with
  | some (v, rest) =>
    if (rest.dropWhile isJsonWs).isEmpty then some v else none
  | none => none

/-- After the closing brace candidate of the fenced-block pattern
`(backtick backtick backtick)(?:json)?\s*(\x7b.*?\x7d)\s*(backtick backtick
backtick)`: the trailing `\s*` is greedy but is followed by a literal
backtick, which is not whitespace, so it necessarily consumes the maximal
whitespace run; then the three backticks must follow. -/
def fencedTail (l : List Char) : Bool :=
  "\x60\x60\x60".toList.isPrefixOf (l.dropWhile isPySpace)

/-- Lazy scan of `.*?\x7d` under `re.DOTALL`: the earliest position whose
character is `\x7d` and whose continuation satisfies `fencedTail` ends the
capture; any other character (a `\x7d` with a failing tail included) is
absorbed by `.*?`.  Returns the capture after the opening brace, closing
brace included. -/
def lazyClose (acc : List Char) : List Char → Option (List Char)
  | [] => none
  | c :: rest =>
    if c = '\x7d' ∧ fencedTail rest then some (acc ++ [c])
    else lazyClose (acc ++ [c]) rest

/-- Match of the full fenced pattern anchored at the head of `l`:
three backticks, an optional literal `json` (the regex alternative that
skips it can never succeed when `json` is present, since `j` is neither
whitespace nor `\x7b`), greedy `\s*` (forced maximal for the same reason),
an opening brace, then the lazy capture.  Returns capture group 1. -/
def matchFencedAt (l : List Char) : Option String :=
  if "\x60\x60\x60".toList.isPrefixOf l then
    let l1 := l.drop 3
    let l2 := if "json".toList.isPrefixOf l1 then l1.drop 4 else l1
    match l2.dropWhile isPySpace with
    | c :: rest =>
      if c = '\x7b' then
        match lazyClose [] rest with
        | some g => some (String.mk ('\x7b' :: g))
        | none => none
      else none
    | [] => none
  else none

/-- Leftmost-first search of `re.search(r'(backticks)(?:json)?\s*(\x7b.*?\x7d)\s*(backticks)', …, re.DOTALL)`:
the first start position with a full match wins. -/
def reSearchFenced : List Char → Option String
  | [] => none
  | c :: t =>
    match matchFencedAt (c :: t) with
    | some g => some g
    | none => reSearchFenced t

/-- The embedding of `ConversationHandler._parse_tool_call`
(`function_calling_library.py`, lines 186-213): extract a JSON candidate
from a fenced code block, or fall back to the whole message when its
stripped form starts with `\x7b`; then `json.loads` the stripped candidate,
mapping a decode error (logged in Python) to `none`. -/
def parse_tool_call (response_message : String) : Option Json :=
  let json_str : Option String :=
    match reSearchFenced response_message.toList with
    | some g => some g
    | none =>
      match (pyStrip response_message).toList with
      | c :: _ => if c = '\x7b' then some response_message else none
      | [] => none
  match json_str with
  | some js => jsonLoads (pyStrip js)
  | none => none

/-- Leftmost occurrence of a literal substring, returning the text after
it: models `re.search(r'Args:(.*)', docstring, re.DOTALL)`, whose group 1
is everything after the first `Args:`. -/
def findAfterSub (needle : List Char) : List Char → Option (List Char)
  | [] => if needle.isEmpty then some [] else none
  | c :: t =>
    if needle.isPrefixOf (c :: t) then some ((c :: t).drop needle.length)
    else findAfterSub needle t

/-- Scan of the lazy group `\(.*?\):` after the opening parenthesis: ends
at the first `):` pair with no intervening newline (`.` does not match a
newline without `re.DOTALL`). -/
def paramCloseScan : List Char → Option (List Char)
  | ')' :: ':' :: r => some r
  | c :: r => if c = '\n' then none else paramCloseScan r
  | [] => none

/-- Attempt of the per-parameter pattern
`^\s*name\s*\(.*?\):\s*(.*)` (compiled with `re.MULTILINE`) at one line
start.  Both `\s*` before and after `name` are greedy but followed by a
non-whitespace literal (the first character of the identifier `name`,
respectively `(` ), so they are forced to the maximal whitespace run; the
final `\s*` may span newlines and is again forced maximal, after which
`(.*)` captures the rest of that line. -/
def matchParamAt (name : List Char) (l : List Char) : Option String :=
  let l1 := l.dropWhile isPySpace
  if name.isPrefixOf l1 ∧ !name.isEmpty then
    let l2 := (l1.drop name.length).dropWhile isPySpace
    match l2 with
    | '(' :: rest =>
      match paramCloseScan rest with
      | some rest2 =>
        some (String.mk ((rest2.dropWhile isPySpace).takeWhile (fun c => c ≠ '\n')))
      | none => none
    | _ => none
  else none

/-- Remaining line starts for the `re.MULTILINE` search: `^` matches right
after every newline. -/
def searchParamFrom (name : List Char) : List Char → Option String
  | [] => none
  | c :: t =>
    if c = '\n' then
      match matchParamAt name t with
      | some r => some r
      | none => searchParamFrom name t
    else searchParamFrom name t

/-- Leftmost match of the per-parameter pattern over all line starts
(the start of the string included). -/
def searchParam (name : List Char) (l : List Char) : Option String :=
  match matchParamAt name l with
  | some r => some r
  | none => searchParamFrom name l

/-- Python annotations that `register_tool` distinguishes (anything other
than `int`, `float`, `bool` — `str` and missing annotations included —
falls back to the JSON type `string`). -/
inductive PyAnnot where
  | none : PyAnnot
  | aInt : PyAnnot
  | aFloat : PyAnnot
  | aBool : PyAnnot
  | aStr : PyAnnot
  | aOther : PyAnnot

/-- The JSON-schema type string chosen by `register_tool` for an
annotation. -/
def PyAnnot.schemaType : PyAnnot → String
  | .aInt => "integer"
  | .aFloat => "number"
  | .aBool => "boolean"
  | _ => "string"

/-- A declared parameter of a Python callable, as seen by
`inspect.signature`. -/
structure PyParam where
  name : String
  annot : PyAnnot

/-- A Python callable as `register_tool` reflects on it: its `__name__`,
the `inspect.getdoc` result (already indentation-cleaned by `getdoc`;
`Option.none` models a missing docstring and the empty string a present
but falsy one), its signature, and its behavior.  The behavior takes the
keyword-argument dictionary of the `f(**params)` call and either returns
the `str()` of the Python return value or raises with a message. -/
structure PyFuncDecl where
  name : String
  doc : Option String
  params : List PyParam
  impl : List (String × Json) → Except String String

/-- Prefix up to the first blank-line separator `\n\n` (the `[0]` field of
a Python `split('\n\n')`). -/
def firstParaAux : List Char → List Char
  | [] => []
  | '\n' :: '\n' :: _ => []
  | c :: t => c :: firstParaAux t

/-- First paragraph of a docstring:
`docstring.strip().split('\n\n')[0]`. -/
def firstParagraph (s : String) : String :=
  String.mk (firstParaAux (pyStrip s).toList)

/-- The description extracted by `register_tool`: the first paragraph of
the docstring, or the fallback when the docstring is missing or empty. -/
def extractDescription (doc : Option String) : String :=
  match doc with
  | Option.none => "No description found."
  | some d => if d = "" then "No description found." else firstParagraph d

/-- The per-parameter description extracted by `register_tool`: the
captured group of the line pattern inside the `Args:` section, stripped;
empty on any failure (best-effort heuristic, lines 46-54 of
`function_calling_library.py`). -/
def extractParamDescription (doc : Option String) (pname : String) : String :=
  match doc with
  | Option.none => ""
  | some d =>
    if d = "" then ""
    else
      match findAfterSub "Args:".toList d.toList with
      | Option.none => ""
      | some sect =>
        match searchParam pname.toList sect with
        | some captured => pyStrip captured
        | Option.none => ""

/-- One entry of the parameter schema built by `register_tool`: the
Python dict `{"name": …, "type": …, "description": …}`. -/
structure ParamSchema where
  name : String
  type : String
  description : String

/-- One entry of `tools_schema`: the Python dict
`{"tool_name": …, "description": …, "parameters": […]}` with that key
order. -/
structure ToolSchema where
  tool_name : String
  description : String
  parameters : List ParamSchema

/-- The `ToolManager` state: both dicts keyed by tool name, in insertion
order (`tools_schema` and `available_tools`). -/
structure ToolManager where
  tools_schema : List (String × ToolSchema)
  available_tools : List (String × (List (String × Json) → Except String String))

/-- A fresh `ToolManager()` with both dicts empty. -/
def ToolManager.init : ToolManager :=
  ⟨[], []⟩

/-- The schema `register_tool` derives from a callable. -/
def buildSchema (func : PyFuncDecl) : ToolSchema :=
  ⟨func.name, extractDescription func.doc,
    func.params.map
      (fun p => ⟨p.name, p.annot.schemaType, extractParamDescription func.doc p.name⟩)⟩

/-- The embedding of `ToolManager.register_tool`
(`function_calling_library.py`, lines 15-66): store the callable under its
`__name__` and store the derived schema, with Python dict update
semantics. -/
def ToolManager.register_tool (tm : ToolManager) (func : PyFuncDecl) : ToolManager :=
  ⟨insertKV tm.tools_schema func.name (buildSchema func),
   insertKV tm.available_tools func.name func.impl⟩

/-- The JSON value of one parameter schema dict. -/
def ParamSchema.toJson (p : ParamSchema) : Json :=
  .obj [("name", .str p.name), ("type", .str p.type),
        ("description", .str p.description)]

/-- The JSON value of one tool schema dict, with the stable key order
`tool_name`, `description`, `parameters` in which `register_tool` builds
it. -/
def ToolSchema.toJson (s : ToolSchema) : Json :=
  .obj [("tool_name", .str s.tool_name), ("description", .str s.description),
        ("parameters", .arr (s.parameters.map ParamSchema.toJson))]

/-- The embedding of `ToolManager.get_tools_for_prompt`
(`function_calling_library.py`, lines 68-77): the sentinel for an empty
registry, otherwise `json.dumps(list(self.tools_schema.values()), indent=4)`. -/
def ToolManager.get_tools_for_prompt (tm : ToolManager) : String :=
  if tm.tools_schema.isEmpty then "No tools available."
  else dumpsInd4 (.arr (tm.tools_schema.map (fun p => p.2.toJson)))

/-- One chat message (role and content). -/
structure Message where
  role : String
  content : String
deriving DecidableEq

/-- One attempted exchange with the inference endpoint: the message list
sent and the sampling temperature used. -/
structure Exchange where
  messages : List Message
  temperature : ℚ

/-- How a `run()` call can fail: the endpoint call raised (propagated
unchanged, lines 131-135 / 173-177), or an uncaught `TypeError` from
hashing an unhashable value in the dict membership test of line 141. -/
inductive RunError where
  | endpointFailure (msg : String)
  | typeError (msg : String)
deriving DecidableEq

/-- Observable trace of one `run()` call: every endpoint exchange that was
attempted, every tool invocation performed, and the outcome — the final
answer printed, or the exception that escaped `run()`. -/
structure RunTrace where
  exchanges : List Exchange
  toolInvocations : List (String × Json)
  outcome : Except RunError String

/-- The inference endpoint collaborator: receives the messages and the
temperature, returns the assistant reply content or fails (network or
server error). -/
abbrev Endpoint : Type := List Message → ℚ → Except String String

/-- The `ConversationHandler` state from `__init__` (the OpenAI client is
the `Endpoint` argument of `run`). -/
structure ConversationHandler where
  tool_manager : ToolManager
  model : String
  temperature : ℚ

/-- The embedding of `ConversationHandler._create_system_prompt`
(lines 99-110): the fixed f-string with the serialized registry spliced
in. -/
def ConversationHandler.create_system_prompt (h : ConversationHandler) : String :=
  "\nYou are a helpful assistant with access to the following tools.\nTo use a tool, you must respond with a JSON object with two keys: \"tool_name\" and \"parameters\".\n\nHere are the available tools:\n"
    ++ h.tool_manager.get_tools_for_prompt
    ++ "\n\nIf you decide to use a tool, your response MUST be only the JSON object.\nIf you don\x27t need a tool, answer the user\x27s question directly.\n"

/-- The fixed follow-up instruction appended before the second exchange
(lines 165-168). -/
def followupPrompt : String :=
  "Based on the result from the tool, please formulate a final answer to the original user question."

/-- A Python call `f(**params)` where `params` is an arbitrary parsed JSON
value: unpacking a non-dict raises a `TypeError`, which the `try` block of
lines 152-155 catches like any error raised by `f` itself. -/
def callKw (f : List (String × Json) → Except String String) (params : Json) :
    Except String String :=
  match params with
  | .obj kvs => f kvs
  | _ => .error "argument after ** must be a mapping"

/-- Phase 3 of `run` (lines 141-179), entered once a truthy parsed object
carries a registered `tool_name`: invoke the tool (converting any raised
error into the `Error executing tool: …` string), append the assistant
tool-call message (re-serialized with `indent=4`), the tool-role result
message and the fixed follow-up instruction, and perform the second
exchange at the hard-coded temperature `0.7`. -/
def runToolPhase (endpoint : Endpoint) (messages : List Message)
    (ex1 : Exchange) (tc : Json) (s : String)
    (f : List (String × Json) → Except String String) : RunTrace :=
  let tool_params := tc.getD "parameters" (.obj [])
  let function_response :=
    match callKw f tool_params with
    | .ok v => v
    | .error e => "Error executing tool: " ++ e
  let messages2 := messages ++
    [⟨"assistant", dumpsInd4 tc⟩, ⟨"tool", function_response⟩,
     ⟨"user", followupPrompt⟩]
  let ex2 : Exchange := ⟨messages2, (0.7 : ℚ)⟩
  match endpoint messages2 (0.7 : ℚ) with
  | .error m => ⟨[ex1, ex2], [(s, tool_params)], .error (.endpointFailure m)⟩
  | .ok final_response => ⟨[ex1, ex2], [(s, tool_params)], .ok final_response⟩

/-- The embedding of `ConversationHandler.run` (lines 112-184).  The
branching mirrors
`if tool_call and tool_call.get("tool_name") in self.tool_manager.available_tools:`
literally: a `None` or falsy (empty-dict) parse result and a missing,
non-string or unregistered `tool_name` all fall through to the no-tool
branch, which prints the first reply verbatim; a `tool_name` that parsed to
a JSON array or object is unhashable in Python, so the membership test
itself raises `TypeError` outside any `try` block (numbers, booleans and
`None` hash fine and simply compare unequal to the string keys). -/
def ConversationHandler.run (h : ConversationHandler) (endpoint : Endpoint)
    (user_prompt : String) : RunTrace :=
  let messages : List Message :=
    [⟨"system", h.create_system_prompt⟩, ⟨"user", user_prompt⟩]
  let ex1 : Exchange := ⟨messages, h.temperature⟩
  match endpoint messages h.temperature with
  | .error m => ⟨[ex1], [], .error (.endpointFailure m)⟩
  | .ok response_message =>
    match parse_tool_call response_message with
    | none => ⟨[ex1], [], .ok response_message⟩
    | some tc =>
      if !tc.truthy then ⟨[ex1], [], .ok response_message⟩
      else
        match tc.get "tool_name" with
        | some (.arr _) =>
          ⟨[ex1], [], .error (.typeError "unhashable type: \x27list\x27")⟩
        | some (.obj _) =>
          ⟨[ex1], [], .error (.typeError "unhashable type: \x27dict\x27")⟩
        | some (.str s) =>
          match lookupKV h.tool_manager.available_tools s with
          | some f => runToolPhase endpoint messages ex1 tc s f
          | none => ⟨[ex1], [], .ok response_message⟩
        | _ => ⟨[ex1], [], .ok response_message⟩

/-- Invocation of a tool through the registry, exactly as `run` performs
it in lines 151-155: the dict indexing `available_tools[tool_name]`
signals a `KeyError` (Python's ToolNotFound) for an absent name, and a
raising implementation is converted to the `Error executing tool: …`
string instead of propagating. -/
def registryInvoke (tm : ToolManager) (name : String) (params : Json) :
    Except String String :=
  match lookupKV tm.available_tools name with
  | none => .error ("KeyError: \x27" ++ name ++ "\x27")
  | some f =>
    match callKw f params with
    | .ok v => .ok v
    | .error e => .ok ("Error executing tool: " ++ e)

/-- Body of `get_weather` (`test2.py` lines 7-22 — `weather_tool.py`
lines 5-20 are identical): case-insensitive substring dispatch on the city
and a compact `json.dumps` of the mock payload.  A non-string `city`
raises in `city.lower()` (`AttributeError`); the message text is
abbreviated, no claim inspects it. -/
def get_weather_body (city unit : Json) : Except String String :=
  match city with
  | .str c =>
    if strContainsSub "chicago" (pyLower c) then
      .ok (dumpsC (.obj [("city", .str "Chicago"), ("temperature", .str "12"),
                         ("unit", unit)]))
    else if strContainsSub "tokyo" (pyLower c) then
      .ok (dumpsC (.obj [("city", .str "Tokyo"), ("temperature", .str "25"),
                         ("unit", unit)]))
    else .ok (dumpsC (.obj [("error", .str "City not found")]))
  | _ => .error "AttributeError: object has no attribute \x27lower\x27"

/-- Keyword binding of a call `get_weather(**kvs)` against the signature
`get_weather(city: str, unit: str = "celsius")`: an unexpected keyword or
a missing `city` raises `TypeError`, an omitted `unit` gets its default. -/
def get_weather_impl (kvs : List (String × Json)) : Except String String :=
  if kvs.any (fun kv => kv.1 != "city" && kv.1 != "unit") then
    .error "get_weather() got an unexpected keyword argument"
  else
    match lookupKV kvs "city" with
    | none => .error "get_weather() missing 1 required positional argument: \x27city\x27"
    | some city =>
      get_weather_body city
        (match lookupKV kvs "unit" with
         | some u => u
         | none => .str "celsius")

/-- The reflection view of `get_weather` as `register_tool` sees it: its
`__name__`, the `inspect.getdoc` result (common indentation removed), the
two annotated parameters, and the behavior above. -/
def get_weather_decl : PyFuncDecl :=
  ⟨"get_weather",
   some "Get the current weather for a given city.\n\nArgs:\n    city (str): The name of the city.\n    unit (str): The temperature unit, \x27celsius\x27 or \x27fahrenheit\x27.",
   [⟨"city", .aStr⟩, ⟨"unit", .aStr⟩],
   get_weather_impl⟩

/-- The registry built by `test2.py`: a fresh manager with `get_weather`
registered. -/
def weatherManager : ToolManager :=
  ToolManager.init.register_tool get_weather_decl


/-- An always-raising tool implementation (for the error-path claims). -/
def bomb_impl : List (String × Json) → Except String String :=
  fun _ => .error "boom"

/-- Declaration of the raising tool. -/
def bomb_decl : PyFuncDecl :=
  ⟨"bomb", Option.none, [], bomb_impl⟩

/-- Registry holding only the raising tool. -/
def bombManager : ToolManager :=
  ToolManager.init.register_tool bomb_decl

/-- Handler over the empty registry at the default temperature `0.1`. -/
def handlerEmpty : ConversationHandler :=
  ⟨ToolManager.init, "local-model", (0.1 : ℚ)⟩

/-- Handler over the weather registry. -/
def handlerWeather : ConversationHandler :=
  ⟨weatherManager, "local-model", (0.1 : ℚ)⟩

/-- Handler over the raising-tool registry. -/
def bombHandler : ConversationHandler :=
  ⟨bombManager, "local-model", (0.1 : ℚ)⟩

/-- Endpoint whose first reply is a valid call of the raising tool and
whose follow-up reply is a fixed final answer (it distinguishes the two
exchanges by the message count: 2 initially, 5 after the tool phase). -/
def epBomb : Endpoint :=
  fun ms _ =>
    if ms.length = 2 then
      .ok "\x7b\"tool_name\": \"bomb\", \"parameters\": \x7b\x7d\x7d"
    else .ok "final answer"

/-- Endpoint that always answers with a tool call whose `tool_name` is a
JSON list — parsed fine, but unhashable in the dict membership test. -/
def epListTool : Endpoint :=
  fun _ _ => .ok "\x7b\"tool_name\": [], \"parameters\": \x7b\x7d\x7d"

/-- Endpoint that always answers with a tool call whose `tool_name` is a
JSON object — likewise unhashable. -/
def epDictTool : Endpoint :=
  fun _ _ => .ok "\x7b\"tool_name\": \x7b\x7d, \"parameters\": \x7b\x7d\x7d"

/-- Endpoint that always answers in prose. -/
def epPlain : Endpoint :=
  fun _ _ => .ok "The answer is 4."

/-- The hashable-and-unregistered condition of the amended claim C1: the
`tool_name` value of the parsed object (when there is one) is neither a
JSON array nor a JSON object (those are unhashable in Python and make the
membership test raise), and as a hashable value it is not a key of
`available_tools` (only a string can equal a string key). -/
def HashableNonKey (tm : ToolManager) (g : Option Json) : Prop :=
  match g with
  | some (.str s) => lookupKV tm.available_tools s = Option.none
  | some (.arr _) => False
  | some (.obj _) => False
  | _ => True

/-- No tool call will be detected for this reply, and no exception will be
raised while detecting: the reply fails to parse, or parses to a falsy
value, or its `tool_name` is hashable and unregistered. -/
def NoToolCase (tm : ToolManager) (reply : String) : Prop :=
  match parse_tool_call reply with
  | Option.none => True
  | some tc => tc.truthy = false ∨ HashableNonKey tm (tc.get "tool_name")

/-- The parsed `tool_name` of this reply (when the reply parses at all) is
not a JSON array or object, so Python can hash it: the condition under
which the amended claim C4 promises absence of crashes. -/
def ToolNameHashable (reply : String) : Prop :=
  match parse_tool_call reply with
  | Option.none => True
  | some tc =>
    match tc.get "tool_name" with
    | some (.arr _) => False
    | some (.obj _) => False
    | _ => True

/-- First duplicate-registration candidate for claim C9. -/
def dupF : PyFuncDecl :=
  ⟨"dup", some "First version.", [⟨"a", .aInt⟩], fun _ => .ok "one"⟩

/-- Second duplicate-registration candidate for claim C9 (same declared
name, different docstring, signature and behavior). -/
def dupG : PyFuncDecl :=
  ⟨"dup", some "Second version.", [⟨"b", .aBool⟩], fun _ => .ok "two"⟩

/-- Classifier of the uncaught-`TypeError` outcome: `true` exactly when
`run()` escaped with the hashability `TypeError` of the membership test
(the one failure mode that is not an endpoint failure). -/
def isTypeError : Except RunError String → Bool
  | .error (.typeError _) => true
  | _ => false

/-- Endpoint that always fails (unreachable server). -/
def epFail : Endpoint :=
  fun _ _ => .error "connection refused"

mutual

/-- Fuel adequate for `parseVal` on the `indent=4` rendering of a value:
one unit per parser call (value entry plus one loop step per element or
member). -/
def jsonFuel : Json → Nat
  | .arr xs => 1 + jsonFuelElems xs
  | .obj ms => 1 + jsonFuelMembers ms
  | _ => 1

/-- Fuel for the element loop. -/
def jsonFuelElems : List Json → Nat
  | [] => 0
  | x :: t => 1 + jsonFuel x + jsonFuelElems t

/-- Fuel for the member loop. -/
def jsonFuelMembers : List (String × Json) → Nat
  | [] => 0
  | (_, v) :: t => 1 + jsonFuel v + jsonFuelMembers t

end

mutual

/-- Values whose `indent=4` dump parses back to themselves: no numbers
(their lexeme would need normalization reasoning) and no duplicate object
keys (Python dicts would merge them).  Every serialized tool schema is
good (`goodJson_toJson`). -/
def goodJson : Json → Bool
  | .null => true
  | .bool _ => true
  | .num _ => false
  | .str _ => true
  | .arr xs => goodJsonElems xs
  | .obj ms => goodJsonMembers ms && decide (ms.map Prod.fst).Nodup

/-- All elements good. -/
def goodJsonElems : List Json → Bool
  | [] => true
  | x :: t => goodJson x && goodJsonElems t

/-- All member values good. -/
def goodJsonMembers : List (String × Json) → Bool
  | [] => true
  | (_, v) :: t => goodJson v && goodJsonMembers t

end

/-- Rebuilding a string from its character list is the identity. -/
theorem mk_toList (s : String) : String.mk s.toList = s := by
  cases s
  rfl

/-- Members scanned by `parseMembers` always assemble into an object. -/
theorem parseMembers_obj (f : Nat) :
    ∀ acc l v r, parseMembers f acc l = some (v, r) → ∃ ms, v = .obj ms := by
  induction f with
  | zero => intro acc l v r hp; simp [parseMembers] at hp
  | succ f ih =>
    intro acc l v r hp
    unfold parseMembers at hp
    repeat' split at hp
    all_goals first
      | (simp only [Option.some.injEq, Prod.mk.injEq] at hp
         exact ⟨_, hp.1.symm⟩)
      | exact ih _ _ _ _ hp
      | exact absurd hp (by simp)

/-- Claim C3: `_parse_tool_call` extracts its JSON candidate with this
precedence: a fenced code block (tagged `json` or untagged, first
non-greedy brace span) wins; otherwise a trimmed text beginning with an
opening brace makes the entire text the payload; otherwise there is no
candidate.  In particular the fenced example yields the object with
`tool_name` "x" and empty `parameters`, and plain prose yields no tool
call. -/
theorem claim_C3_detection :
    (∀ (s g : String), reSearchFenced s.toList = some g →
        parse_tool_call s = jsonLoads (pyStrip g)) ∧
    (∀ s : String, reSearchFenced s.toList = none →
        (∀ c t, (pyStrip s).toList = c :: t → c ≠ '\x7b') →
        parse_tool_call s = none) ∧
    (∀ s : String, reSearchFenced s.toList = none →
        (∃ t, (pyStrip s).toList = '\x7b' :: t) →
        parse_tool_call s = jsonLoads (pyStrip s)) ∧
    parse_tool_call "\x60\x60\x60json\n\x7b\"tool_name\":\"x\",\"parameters\":\x7b\x7d\x7d\n\x60\x60\x60" =
      some (.obj [("tool_name", .str "x"), ("parameters", .obj [])]) ∧
    parse_tool_call "The answer is 4." = none ∧
    parse_tool_call "\x7b\"a\": 1\x7d \x60\x60\x60\x7b\"b\": 2\x7d\x60\x60\x60" =
      some (.obj [("b", .num "2")]) := by
  refine ⟨?_, ?_, ?_, rfl, rfl, rfl⟩
  · intro s g hg
    simp only [parse_tool_call, hg]
  · intro s h0 hc
    simp only [parse_tool_call, h0]
    cases h : (pyStrip s).toList with
    | nil => simp
    | cons c t =>
      have hne := hc c t h
      simp [hne]
  · intro s h0 ht
    obtain ⟨t, h⟩ := ht
    simp only [parse_tool_call, h0, h]
    simp

/-- Witness for C3: the whole-text fallback fires on a bare object, and
prose produces no candidate. -/
theorem claim_C3_detection_witness :
    parse_tool_call "  \x7b\"tool_name\": \"y\"\x7d " =
      jsonLoads (pyStrip "  \x7b\"tool_name\": \"y\"\x7d ") ∧
    parse_tool_call "The answer is 4." = none :=
  ⟨claim_C3_detection.2.2.1 _ (by rfl) ⟨"\"tool_name\": \"y\"\x7d".toList, by rfl⟩,
   claim_C3_detection.2.1 "The answer is 4." (by rfl)
     (by
       intro c t h
       have h2 : some 'T' = some c := by
         have h3 : (pyStrip "The answer is 4.").toList.head? = some c := by
           rw [h]
           rfl
         have h5 : (pyStrip "The answer is 4.").toList.head? = some 'T' := rfl
         rw [h5] at h3
         exact h3
       injection h2 with h4
       subst h4
       decide)⟩

/-- Claim C7: after registering `get_weather(city, unit="celsius")`,
invoking it with only `city = "Tokyo"` returns the mock payload whose JSON
object is `city: Tokyo, temperature: 25, unit: celsius` — the default unit
is applied when `unit` is omitted. -/
theorem claim_C7_weather_roundtrip :
    registryInvoke weatherManager "get_weather" (.obj [("city", .str "Tokyo")]) =
      .ok "\x7b\"city\": \"Tokyo\", \"temperature\": \"25\", \"unit\": \"celsius\"\x7d" ∧
    jsonLoads "\x7b\"city\": \"Tokyo\", \"temperature\": \"25\", \"unit\": \"celsius\"\x7d" =
      some (.obj [("city", .str "Tokyo"), ("temperature", .str "25"),
                  ("unit", .str "celsius")]) :=
  ⟨rfl, rfl⟩

/-- A needle that starts the haystack is contained in it. -/
theorem listContainsSub_of_isPrefixOf (n l : List Char)
    (h : n.isPrefixOf l = true) : listContainsSub n l = true := by
  cases l with
  | nil => cases n <;> simp_all [listContainsSub, List.isPrefixOf]
  | cons c t => simp [listContainsSub, h]

/-- Claim C6: invoking through the registry with an unregistered name
signals Python's name-lookup error (`KeyError`, the concrete ToolNotFound);
invoking a registered name whose implementation raises returns a string
carrying the error description rather than raising. -/
theorem claim_C6_invoke_contract (tm : ToolManager) (name : String) (params : Json) :
    (lookupKV tm.available_tools name = none →
      registryInvoke tm name params = .error ("KeyError: \x27" ++ name ++ "\x27")) ∧
    (∀ f e, lookupKV tm.available_tools name = some f →
      callKw f params = .error e →
      registryInvoke tm name params = .ok ("Error executing tool: " ++ e) ∧
      strContainsSub "Error executing tool" ("Error executing tool: " ++ e) = true) := by
  constructor
  · intro h
    simp only [registryInvoke, h]
  · intro f e hf he
    refine ⟨by simp only [registryInvoke, hf, he], ?_⟩
    have h1 : "Error executing tool".toList <+: "Error executing tool: ".toList := by
      decide
    have h2 : "Error executing tool: ".toList <+:
        ("Error executing tool: ".toList ++ e.toList) := List.prefix_append _ _
    have h4 : ("Error executing tool: " ++ e).toList =
        "Error executing tool: ".toList ++ e.toList := String.data_append _ _
    unfold strContainsSub
    apply listContainsSub_of_isPrefixOf
    rw [h4, List.isPrefixOf_iff_prefix]
    exact h1.trans h2

/-- Witness for C6: the empty registry knows no `get_weather`, and the
always-raising tool in `bombManager` reports its error as a string. -/
theorem claim_C6_invoke_contract_witness :
    registryInvoke ToolManager.init "get_weather" (.obj []) =
      .error ("KeyError: \x27get_weather\x27") ∧
    registryInvoke bombManager "bomb" (.obj []) =
      .ok ("Error executing tool: " ++ "boom") :=
  ⟨(claim_C6_invoke_contract ToolManager.init "get_weather" (.obj [])).1 rfl,
   ((claim_C6_invoke_contract bombManager "bomb" (.obj [])).2 bomb_impl "boom"
     rfl rfl).1⟩

/-- Claim C8: every `run()` performs exactly one more endpoint exchange
than tool invocations, and at most one tool invocation — so at most two
exchanges, the second occurring exactly when a valid tool call was
detected, and never a loop over multiple tool rounds. -/
theorem claim_C8_single_round (h : ConversationHandler) (endpoint : Endpoint) (p : String) :
    (h.run endpoint p).exchanges.length =
      1 + (h.run endpoint p).toolInvocations.length ∧
    (h.run endpoint p).toolInvocations.length ≤ 1 := by
  unfold ConversationHandler.run runToolPhase
  dsimp only
  repeat' split
  all_goals simp

/-- Claim C10: the first exchange of `run()` is issued at the handler's
configured temperature, and the follow-up exchange, when it happens, at
the hard-coded temperature `0.7`, independent of the configured value. -/
theorem claim_C10_temperatures (h : ConversationHandler) (endpoint : Endpoint) (p : String) :
    (h.run endpoint p).exchanges.map Exchange.temperature = [h.temperature] ∨
    (h.run endpoint p).exchanges.map Exchange.temperature =
      [h.temperature, (0.7 : ℚ)] := by
  unfold ConversationHandler.run runToolPhase
  dsimp only
  repeat' split
  all_goals simp

/-- Counterexample to claim C1 as stated: the reply parses to an object
whose `tool_name` (a JSON list) is not a key of the (empty) registry
mapping, yet `run` does not emit the reply verbatim — the membership test
raises `TypeError: unhashable type: 'list'`, which escapes `run`. -/
theorem claim_C1_counterexample :
    parse_tool_call "\x7b\"tool_name\": [], \"parameters\": \x7b\x7d\x7d" =
      some (.obj [("tool_name", .arr []), ("parameters", .obj [])]) ∧
    handlerEmpty.tool_manager.available_tools = [] ∧
    (handlerEmpty.run epListTool "What is 2+2?").outcome =
      .error (.typeError "unhashable type: \x27list\x27") ∧
    (handlerEmpty.run epListTool "What is 2+2?").outcome ≠
      .ok "\x7b\"tool_name\": [], \"parameters\": \x7b\x7d\x7d" :=
  ⟨rfl, rfl, rfl, by
    have he : (handlerEmpty.run epListTool "What is 2+2?").outcome =
        .error (.typeError "unhashable type: \x27list\x27") := rfl
    rw [he]
    simp⟩

/-- Amended claim C1: when the first reply yields no extractable JSON,
fails to parse, parses to a falsy value, or parses to an object whose
`tool_name` is hashable (not a JSON array or object) and not a registered
key, `run` performs no tool invocation and no second exchange and the
first reply is the final answer verbatim, with no error surfaced. -/
theorem claim_C1_no_tool_fail_open (h : ConversationHandler) (ep : Endpoint)
    (p reply : String)
    (h1 : ep [⟨"system", h.create_system_prompt⟩, ⟨"user", p⟩] h.temperature =
      .ok reply)
    (h2 : NoToolCase h.tool_manager reply) :
    h.run ep p =
      ⟨[⟨[⟨"system", h.create_system_prompt⟩, ⟨"user", p⟩], h.temperature⟩], [],
        .ok reply⟩ := by
  unfold ConversationHandler.run
  dsimp only
  rw [h1]
  unfold NoToolCase at h2
  cases hp : parse_tool_call reply with
  | none => simp [hp]
  | some tc =>
    rw [hp] at h2
    cases htc : tc.truthy with
    | false => simp [hp, htc]
    | true =>
      rcases h2 with h2 | h2
      · rw [htc] at h2; cases h2
      · unfold HashableNonKey at h2
        cases hg : tc.get "tool_name" with
        | none => simp [hp, htc, hg]
        | some g =>
          rw [hg] at h2
          cases g with
          | str s =>
            simp only at h2
            simp [hp, htc, hg, h2]
          | arr xs => simp at h2
          | obj ms => simp at h2
          | num n => simp [hp, htc, hg]
          | bool b => simp [hp, htc, hg]
          | null => simp [hp, htc, hg]

/-- Witness for the amended claim C1: a prose reply over the empty
registry is returned verbatim after a single exchange. -/
theorem claim_C1_no_tool_fail_open_witness :
    handlerEmpty.run epPlain "What is 2+2?" =
      ⟨[⟨[⟨"system", handlerEmpty.create_system_prompt⟩,
          ⟨"user", "What is 2+2?"⟩], handlerEmpty.temperature⟩], [],
        .ok "The answer is 4."⟩ :=
  claim_C1_no_tool_fail_open handlerEmpty epPlain "What is 2+2?"
    "The answer is 4." rfl
    (by
      unfold NoToolCase
      rw [show parse_tool_call "The answer is 4." = none from rfl]
      trivial)

/-- Counterexample to claim C4 as stated: with a registered tool and an
endpoint that never fails, a reply whose `tool_name` parses to a JSON
object makes `run` raise `TypeError: unhashable type: 'dict'` — `run` can
fail even though no endpoint exchange failed. -/
theorem claim_C4_counterexample :
    epDictTool [⟨"system", handlerWeather.create_system_prompt⟩,
        ⟨"user", "hi"⟩] handlerWeather.temperature =
      .ok "\x7b\"tool_name\": \x7b\x7d, \"parameters\": \x7b\x7d\x7d" ∧
    (handlerWeather.run epDictTool "hi").outcome =
      .error (.typeError "unhashable type: \x27dict\x27") ∧
    isTypeError (handlerWeather.run epDictTool "hi").outcome = true := by
  refine ⟨rfl, ?_, ?_⟩ <;> rfl

/-- Amended claim C4: provided the first reply's parsed `tool_name` is not
an unhashable JSON array or object, `run` never escapes with a non-endpoint
exception, and an endpoint failure on the first exchange propagates
unchanged. -/
theorem claim_C4_safety (h : ConversationHandler) (ep : Endpoint) (p : String)
    (hh : ∀ reply, ep [⟨"system", h.create_system_prompt⟩, ⟨"user", p⟩]
        h.temperature = .ok reply → ToolNameHashable reply) :
    isTypeError (h.run ep p).outcome = false ∧
    (∀ m, ep [⟨"system", h.create_system_prompt⟩, ⟨"user", p⟩] h.temperature =
        .error m →
      h.run ep p =
        ⟨[⟨[⟨"system", h.create_system_prompt⟩, ⟨"user", p⟩], h.temperature⟩],
          [], .error (.endpointFailure m)⟩) := by
  constructor
  · unfold ConversationHandler.run runToolPhase
    dsimp only
    cases hE : ep [⟨"system", h.create_system_prompt⟩, ⟨"user", p⟩] h.temperature with
    | error m => simp [isTypeError]
    | ok reply =>
      have hha := hh reply hE
      unfold ToolNameHashable at hha
      cases hp : parse_tool_call reply with
      | none => simp [hp, isTypeError]
      | some tc =>
        rw [hp] at hha
        dsimp only at hha
        cases htc : tc.truthy with
        | false => simp [hp, htc, isTypeError]
        | true =>
          cases hg : tc.get "tool_name" with
          | none => simp [hp, htc, hg, isTypeError]
          | some g =>
            rw [hg] at hha
            cases g with
            | str s =>
              cases hL : lookupKV h.tool_manager.available_tools s with
              | none => simp [hp, htc, hg, hL, isTypeError]
              | some f =>
                simp only [hp, htc, hg, hL, Bool.not_true, Bool.false_eq_true,
                  if_false]
                split <;> simp [isTypeError]
            | arr xs => simp at hha
            | obj ms => simp at hha
            | num n => simp [hp, htc, hg, isTypeError]
            | bool b => simp [hp, htc, hg, isTypeError]
            | null => simp [hp, htc, hg, isTypeError]
  · intro m hEm
    unfold ConversationHandler.run
    dsimp only
    rw [hEm]

/-- Witness for the amended claim C4: a prose reply produces no
`TypeError`, and a failing endpoint propagates its failure unchanged. -/
theorem claim_C4_safety_witness :
    isTypeError (handlerWeather.run epPlain "hi").outcome = false ∧
    handlerEmpty.run epFail "hi" =
      ⟨[⟨[⟨"system", handlerEmpty.create_system_prompt⟩, ⟨"user", "hi"⟩],
          handlerEmpty.temperature⟩], [],
        .error (.endpointFailure "connection refused")⟩ :=
  ⟨(claim_C4_safety handlerWeather epPlain "hi"
      (by
        intro reply hE
        have hr : reply = "The answer is 4." := by
          have h2 : Except.ok (ε := String) "The answer is 4." = .ok reply := hE
          injection h2 with h3
          exact h3.symm
        subst hr
        unfold ToolNameHashable
        rw [show parse_tool_call "The answer is 4." = none from rfl]
        trivial)).1,
   (claim_C4_safety handlerEmpty epFail "hi"
      (by
        intro reply hE
        exact absurd hE (by simp [epFail]))).2 "connection refused" rfl⟩

/-- Claim C2: when a valid tool call is detected and the registered
callable raises, the exception is not propagated — it becomes the
`Error executing tool: ...` string carried by the tool-role message, the
phase-3 exchange is still performed, and `run` completes normally with the
follow-up reply as the final answer. -/
theorem claim_C2_tool_error_recovery (h : ConversationHandler) (ep : Endpoint)
    (p reply : String) (tc : Json) (s : String)
    (f : List (String × Json) → Except String String) (e reply2 : String)
    (h1 : ep [⟨"system", h.create_system_prompt⟩, ⟨"user", p⟩] h.temperature =
      .ok reply)
    (h2 : parse_tool_call reply = some tc)
    (h3 : tc.truthy = true)
    (h4 : tc.get "tool_name" = some (.str s))
    (h5 : lookupKV h.tool_manager.available_tools s = some f)
    (h6 : callKw f (tc.getD "parameters" (.obj [])) = .error e)
    (h7 : ep ([⟨"system", h.create_system_prompt⟩, ⟨"user", p⟩] ++
        [⟨"assistant", dumpsInd4 tc⟩, ⟨"tool", "Error executing tool: " ++ e⟩,
         ⟨"user", followupPrompt⟩]) (0.7 : ℚ) = .ok reply2) :
    h.run ep p =
      ⟨[⟨[⟨"system", h.create_system_prompt⟩, ⟨"user", p⟩], h.temperature⟩,
        ⟨[⟨"system", h.create_system_prompt⟩, ⟨"user", p⟩] ++
          [⟨"assistant", dumpsInd4 tc⟩, ⟨"tool", "Error executing tool: " ++ e⟩,
           ⟨"user", followupPrompt⟩], (0.7 : ℚ)⟩],
        [(s, tc.getD "parameters" (.obj []))], .ok reply2⟩ := by
  unfold ConversationHandler.run runToolPhase
  dsimp only
  rw [h1]
  simp only [h2, h3, Bool.not_true, Bool.false_eq_true, if_false]
  rw [h4]
  simp only [h5, h6]
  split
  next m hm => rw [h7] at hm; cases hm
  next r2 hm => rw [h7] at hm; injection hm with hmr; rw [hmr]

/-- Witness for claim C2: the always-raising `bomb` tool still leads to a
completed second exchange whose tool message carries the error text. -/
theorem claim_C2_tool_error_recovery_witness :
    bombHandler.run epBomb "use the bomb" =
      ⟨[⟨[⟨"system", bombHandler.create_system_prompt⟩, ⟨"user", "use the bomb"⟩],
          bombHandler.temperature⟩,
        ⟨[⟨"system", bombHandler.create_system_prompt⟩, ⟨"user", "use the bomb"⟩] ++
          [⟨"assistant", dumpsInd4 (.obj [("tool_name", .str "bomb"),
              ("parameters", .obj [])])⟩,
           ⟨"tool", "Error executing tool: " ++ "boom"⟩,
           ⟨"user", followupPrompt⟩], (0.7 : ℚ)⟩],
        [("bomb", .obj [])], .ok "final answer"⟩ :=
  claim_C2_tool_error_recovery bombHandler epBomb "use the bomb"
    "\x7b\"tool_name\": \"bomb\", \"parameters\": \x7b\x7d\x7d"
    (.obj [("tool_name", .str "bomb"), ("parameters", .obj [])])
    "bomb" bomb_impl "boom" "final answer" rfl rfl rfl rfl rfl rfl rfl

/-- Key membership after a Python dict update. -/
theorem mem_insertKV_keys {α : Type} (l : List (String × α)) (k : String)
    (v : α) (x : String) :
    x ∈ (insertKV l k v).map Prod.fst ↔ x ∈ l.map Prod.fst ∨ x = k := by
  induction l with
  | nil => simp [insertKV]
  | cons p t ih =>
    obtain ⟨k2, v2⟩ := p
    by_cases hk : k2 = k
    · subst hk
      simp [insertKV]
      tauto
    · simp [insertKV, hk, ih]
      tauto

theorem insertKV_nodup {α : Type} (l : List (String × α)) (k : String) (v : α)
    (h : (l.map Prod.fst).Nodup) : ((insertKV l k v).map Prod.fst).Nodup := by
  induction l with
  | nil => simp [insertKV]
  | cons p t ih =>
    obtain ⟨k2, v2⟩ := p
    simp only [List.map_cons, List.nodup_cons] at h
    by_cases hk : k2 = k
    · subst hk
      simpa [insertKV] using h
    · simp only [insertKV, hk, if_false, List.map_cons, List.nodup_cons]
      refine ⟨?_, ih h.2⟩
      rw [mem_insertKV_keys]
      rintro (hmem | hmem)
      · exact h.1 hmem
      · exact hk hmem

theorem filter_keys_nil {α : Type} (t : List (String × α)) (k : String)
    (h : k ∉ t.map Prod.fst) : t.filter (fun p => p.1 == k) = [] := by
  induction t with
  | nil => rfl
  | cons p t ih =>
    obtain ⟨k2, v2⟩ := p
    simp only [List.map_cons, List.mem_cons, not_or] at h
    have : (k2 == k) = false := by
      simp [Ne.symm h.1]
    simp [List.filter, this, ih h.2]

theorem filter_insertKV {α : Type} (l : List (String × α)) (k : String) (v : α)
    (h : (l.map Prod.fst).Nodup) :
    (insertKV l k v).filter (fun p => p.1 == k) = [(k, v)] := by
  induction l with
  | nil => simp [insertKV]
  | cons p t ih =>
    obtain ⟨k2, v2⟩ := p
    simp only [List.map_cons, List.nodup_cons] at h
    by_cases hk : k2 = k
    · subst hk
      simp only [insertKV, if_pos rfl]
      simp [List.filter, filter_keys_nil t k2 h.1]
    · have : (k2 == k) = false := by simp [hk]
      simp only [insertKV, hk, if_false]
      simp [List.filter, this, ih h.2]

/-- Claim C9: registering two callables that share a declared name signals
no error (registration is total) and leaves exactly one entry under that
name in each of the two registry dicts, holding the schema and the
implementation derived from the second callable; key uniqueness is
preserved by every `register_tool` call. -/
theorem claim_C9_register_last_wins (tm : ToolManager) (f g : PyFuncDecl)
    (hname : f.name = g.name)
    (h1 : (tm.tools_schema.map Prod.fst).Nodup)
    (h2 : (tm.available_tools.map Prod.fst).Nodup) :
    ((tm.register_tool f).register_tool g).tools_schema.filter
        (fun p => p.1 == f.name) = [(g.name, buildSchema g)] ∧
    ((tm.register_tool f).register_tool g).available_tools.filter
        (fun p => p.1 == f.name) = [(g.name, g.impl)] ∧
    (((tm.register_tool f).register_tool g).tools_schema.map Prod.fst).Nodup ∧
    (((tm.register_tool f).register_tool g).available_tools.map Prod.fst).Nodup := by
  rw [hname]
  unfold ToolManager.register_tool
  dsimp only
  exact ⟨filter_insertKV _ _ _ (insertKV_nodup _ _ _ h1),
    filter_insertKV _ _ _ (insertKV_nodup _ _ _ h2),
    insertKV_nodup _ _ _ (insertKV_nodup _ _ _ h1),
    insertKV_nodup _ _ _ (insertKV_nodup _ _ _ h2)⟩

/-- Witness for claim C9: registering `dupF` then `dupG` (both named
`dup`) on a fresh manager leaves exactly the `dupG`-derived entry. -/
theorem claim_C9_register_last_wins_witness :
    ((ToolManager.init.register_tool dupF).register_tool dupG).tools_schema.filter
        (fun p => p.1 == dupF.name) = [("dup", buildSchema dupG)] ∧
    ((ToolManager.init.register_tool dupF).register_tool dupG).available_tools.filter
        (fun p => p.1 == dupF.name) = [("dup", dupG.impl)] :=
  ⟨(claim_C9_register_last_wins ToolManager.init dupF dupG rfl List.nodup_nil
      List.nodup_nil).1,
   (claim_C9_register_last_wins ToolManager.init dupF dupG rfl List.nodup_nil
      List.nodup_nil).2.1⟩

/-- A hex digit emitted by the serializer scans back to its value. -/
theorem hexVal_hexDig (d : Nat) (hd : d < 16) : hexVal (hexDig d) = some d := by
  interval_cases d <;> rfl

/-- Four serializer hex digits scan back to the encoded number. -/
theorem parseHex4_toHex4 (n : Nat) (hn : n < 65536) (rest : List Char) :
    parseHex4 (hexDig (n / 4096 % 16) :: hexDig (n / 256 % 16) ::
      hexDig (n / 16 % 16) :: hexDig (n % 16) :: rest) = some (n, rest) := by
  unfold parseHex4
  simp only [hexVal_hexDig _ (by omega : n / 4096 % 16 < 16),
    hexVal_hexDig _ (by omega : n / 256 % 16 < 16),
    hexVal_hexDig _ (by omega : n / 16 % 16 < 16),
    hexVal_hexDig _ (by omega : n % 16 < 16)]
  rw [show 4096 * (n / 4096 % 16) + 256 * (n / 256 % 16) + 16 * (n / 16 % 16) +
      n % 16 = n from by omega]

/-- One escaped character is consumed in one scanner iteration and decodes
to the original character (quote, backslash, the short escapes, plain
printable ASCII, one `\uXXXX` escape, or a surrogate pair). -/
theorem parseStringBody_escChar (c : Char) (fl : Nat) (acc rest : List Char) :
    parseStringBody (fl + 1) acc (escChar c ++ rest) =
      parseStringBody fl (acc ++ [c]) rest := by
  have hval : c.toNat < 55296 ∨ (57344 ≤ c.toNat ∧ c.toNat < 1114112) := c.valid
  unfold escChar
  split_ifs with h1 h2 h3 h4 h5 h6 h7 h8 h9
  · subst h1; rfl
  · subst h2; rfl
  · subst h3; rfl
  · subst h4; rfl
  · subst h5; rfl
  · subst h6; rfl
  · subst h7; rfl
  · show parseStringBody (fl + 1) acc (c :: rest) = _
    conv_lhs => unfold parseStringBody
    rw [if_neg h1, if_neg h2, if_neg (by omega : ¬c.toNat < 32)]
  · -- one \uXXXX escape for a BMP character
    simp only [toHex4, List.cons_append, List.nil_append]
    conv_lhs => unfold parseStringBody
    rw [if_neg (by decide : ¬('\\' : Char) = '"'), if_pos rfl]
    dsimp only
    rw [if_neg (by decide : ¬('u' : Char) = '"'),
      if_neg (by decide : ¬('u' : Char) = '\\'),
      if_neg (by decide : ¬('u' : Char) = '/'),
      if_neg (by decide : ¬('u' : Char) = 'b'),
      if_neg (by decide : ¬('u' : Char) = 'f'),
      if_neg (by decide : ¬('u' : Char) = 'n'),
      if_neg (by decide : ¬('u' : Char) = 'r'),
      if_neg (by decide : ¬('u' : Char) = 't'),
      if_pos (rfl : ('u' : Char) = 'u')]
    rw [parseHex4_toHex4 c.toNat h9]
    dsimp only
    rw [if_neg (by omega : ¬(55296 ≤ c.toNat ∧ c.toNat ≤ 56319))]
    rw [show jsonChar c.toNat = c from Char.ofNat_toNat c]
  · -- surrogate pair for an astral character
    have hub : c.toNat < 1114112 := by omega
    set m1 := 55296 + (c.toNat - 65536) / 1024 with hm1
    set m2 := 56320 + (c.toNat - 65536) % 1024 with hm2
    simp only [toHex4, List.cons_append, List.nil_append, List.append_assoc]
    conv_lhs => unfold parseStringBody
    rw [if_neg (by decide : ¬('\\' : Char) = '"'), if_pos rfl]
    dsimp only
    rw [if_neg (by decide : ¬('u' : Char) = '"'),
      if_neg (by decide : ¬('u' : Char) = '\\'),
      if_neg (by decide : ¬('u' : Char) = '/'),
      if_neg (by decide : ¬('u' : Char) = 'b'),
      if_neg (by decide : ¬('u' : Char) = 'f'),
      if_neg (by decide : ¬('u' : Char) = 'n'),
      if_neg (by decide : ¬('u' : Char) = 'r'),
      if_neg (by decide : ¬('u' : Char) = 't'),
      if_pos (rfl : ('u' : Char) = 'u')]
    rw [parseHex4_toHex4 m1 (by omega)]
    dsimp only
    rw [if_pos (by omega : 55296 ≤ m1 ∧ m1 ≤ 56319)]
    rw [if_pos (⟨rfl, rfl⟩ : ('\\' : Char) = '\\' ∧ ('u' : Char) = 'u')]
    rw [parseHex4_toHex4 m2 (by omega)]
    dsimp only
    rw [if_pos (by omega : 56320 ≤ m2 ∧ m2 ≤ 57343)]
    rw [show 65536 + (m1 - 55296) * 1024 + (m2 - 56320) = c.toNat from by omega]
    rw [show jsonChar c.toNat = c from Char.ofNat_toNat c]

/-- The escaped body of a string literal decodes back to the original
characters, given one unit of fuel per character plus one. -/
theorem parseStringBody_escList (cs : List Char) : ∀ fl acc rest, cs.length < fl →
    parseStringBody fl acc (escList cs ++ '"' :: rest) =
      some (String.mk (acc ++ cs), rest) := by
  induction cs with
  | nil =>
    intro fl acc rest hfl
    obtain ⟨f, rfl⟩ : ∃ f, fl = f + 1 := ⟨fl - 1, by omega⟩
    simp only [escList, List.nil_append]
    conv_lhs => unfold parseStringBody
    rw [if_pos rfl]
    simp
  | cons c cs ih =>
    intro fl acc rest hfl
    obtain ⟨f, rfl⟩ : ∃ f, fl = f + 1 := ⟨fl - 1, by omega⟩
    simp only [escList, List.append_assoc]
    rw [parseStringBody_escChar]
    rw [ih f (acc ++ [c]) rest (by simp at hfl; omega)]
    simp

/-- Escaping does not shorten a string (used to discharge the scanner's
fuel bound). -/
theorem escList_length (cs : List Char) : cs.length ≤ (escList cs).length := by
  induction cs with
  | nil => simp [escList]
  | cons c cs ih =>
    have h1 : 1 ≤ (escChar c).length := by
      unfold escChar
      split_ifs <;> simp [toHex4]
    simp only [escList, List.length_append, List.length_cons]
    omega

/-- Round trip of a serialized string literal body: scanning right after
the opening quote recovers the string and the input after the closing
quote. -/
theorem parseStringAt_round (s : String) (rest : List Char) :
    parseStringAt (escList s.toList ++ '"' :: rest) = some (s, rest) := by
  unfold parseStringAt
  rw [parseStringBody_escList s.toList _ [] rest (by
    have h1 := escList_length s.toList
    simp only [List.length_append, List.length_cons]
    omega)]
  simp [mk_toList]

theorem dropWhile_ws_append (w l : List Char)
    (hw : ∀ c ∈ w, isJsonWs c = true) :
    (w ++ l).dropWhile isJsonWs = l.dropWhile isJsonWs := by
  induction w with
  | nil => rfl
  | cons c t ih =>
    simp only [List.cons_append, List.dropWhile_cons,
      hw c (List.mem_cons_self c t), if_true]
    exact ih (fun c2 hc2 => hw c2 (List.mem_cons_of_mem c hc2))

theorem parseVal_ws (f : Nat) (w l : List Char)
    (hw : ∀ c ∈ w, isJsonWs c = true) :
    parseVal f (w ++ l) = parseVal f l := by
  cases f with
  | zero => rfl
  | succ f =>
    unfold parseVal
    rw [dropWhile_ws_append w l hw]

theorem pad_ws (lvl : Nat) : ∀ c ∈ (pad lvl).toList, isJsonWs c = true := by
  intro c hc
  have : c = ' ' := by
    have h2 : (pad lvl).toList = List.replicate (4 * lvl) ' ' := rfl
    rw [h2] at hc
    exact List.eq_of_mem_replicate hc
  subst this
  rfl

theorem nlpad_ws (lvl : Nat) : ∀ c ∈ '\n' :: (pad lvl).toList, isJsonWs c = true := by
  intro c hc
  rcases List.mem_cons.mp hc with h | h
  · subst h; rfl
  · exact pad_ws lvl c h

theorem parseVal_str (f : Nat) (s : String) (rest : List Char) :
    parseVal (f + 1) ((quoteStr s).toList ++ rest) = some (.str s, rest) := by
  show parseVal (f + 1) (('"' :: (escList s.toList ++ ['"'])) ++ rest) = _
  conv_lhs => unfold parseVal
  rw [show (('"' :: (escList s.toList ++ ['"'])) ++ rest).dropWhile isJsonWs =
    '"' :: (escList s.toList ++ ['"'] ++ rest) from by
      simp [List.dropWhile_cons, isJsonWs]]
  dsimp only
  rw [if_pos rfl]
  rw [show escList s.toList ++ ['"'] ++ rest =
    escList s.toList ++ '"' :: rest from by simp]
  rw [parseStringAt_round]

theorem parseVal_true (f : Nat) (rest : List Char) :
    parseVal (f + 1) ('t' :: 'r' :: 'u' :: 'e' :: rest) = some (.bool true, rest) := by
  conv_lhs => unfold parseVal
  rw [show ('t' :: 'r' :: 'u' :: 'e' :: rest).dropWhile isJsonWs =
    't' :: 'r' :: 'u' :: 'e' :: rest from by
      rw [List.dropWhile_cons]
      simp [isJsonWs]]
  dsimp only
  rw [if_neg (by decide : ¬('t' : Char) = '"'),
    if_neg (by decide : ¬('t' : Char) = '\x7b'),
    if_neg (by decide : ¬('t' : Char) = '[')]
  rw [if_pos (by simp [List.isPrefixOf] :
    "true".toList.isPrefixOf ('t' :: 'r' :: 'u' :: 'e' :: rest) = true)]
  simp

theorem parseVal_false (f : Nat) (rest : List Char) :
    parseVal (f + 1) ('f' :: 'a' :: 'l' :: 's' :: 'e' :: rest) =
      some (.bool false, rest) := by
  conv_lhs => unfold parseVal
  rw [show ('f' :: 'a' :: 'l' :: 's' :: 'e' :: rest).dropWhile isJsonWs =
    'f' :: 'a' :: 'l' :: 's' :: 'e' :: rest from by
      rw [List.dropWhile_cons]
      simp [isJsonWs]]
  dsimp only
  rw [if_neg (by decide : ¬('f' : Char) = '"'),
    if_neg (by decide : ¬('f' : Char) = '\x7b'),
    if_neg (by decide : ¬('f' : Char) = '[')]
  rw [if_neg (by simp [List.isPrefixOf] :
    ¬"true".toList.isPrefixOf ('f' :: 'a' :: 'l' :: 's' :: 'e' :: rest) = true)]
  rw [if_pos (by simp [List.isPrefixOf] :
    "false".toList.isPrefixOf ('f' :: 'a' :: 'l' :: 's' :: 'e' :: rest) = true)]
  simp

theorem parseVal_null (f : Nat) (rest : List Char) :
    parseVal (f + 1) ('n' :: 'u' :: 'l' :: 'l' :: rest) = some (.null, rest) := by
  conv_lhs => unfold parseVal
  rw [show ('n' :: 'u' :: 'l' :: 'l' :: rest).dropWhile isJsonWs =
    'n' :: 'u' :: 'l' :: 'l' :: rest from by
      rw [List.dropWhile_cons]
      simp [isJsonWs]]
  dsimp only
  rw [if_neg (by decide : ¬('n' : Char) = '"'),
    if_neg (by decide : ¬('n' : Char) = '\x7b'),
    if_neg (by decide : ¬('n' : Char) = '[')]
  rw [if_neg (by simp [List.isPrefixOf] :
    ¬"true".toList.isPrefixOf ('n' :: 'u' :: 'l' :: 'l' :: rest) = true)]
  rw [if_neg (by simp [List.isPrefixOf] :
    ¬"false".toList.isPrefixOf ('n' :: 'u' :: 'l' :: 'l' :: rest) = true)]
  rw [if_pos (by simp [List.isPrefixOf] :
    "null".toList.isPrefixOf ('n' :: 'u' :: 'l' :: 'l' :: rest) = true)]
  simp

theorem dumpsInd_head (v : Json) (lvl : Nat) (hv : goodJson v = true)
    (R : List Char) :
    ∃ hd tl, ((dumpsInd lvl v).toList ++ R).dropWhile isJsonWs = hd :: tl ∧
      isJsonWs hd = false ∧ hd ≠ ']' ∧ hd ≠ '\x7d' := by
  cases v with
  | null =>
    exact ⟨'n', "ull".toList ++ R, by
      constructor
      · rw [show ((dumpsInd lvl .null).toList ++ R) =
          'n' :: ("ull".toList ++ R) from rfl]
        rw [List.dropWhile_cons]
        simp [isJsonWs]
      · refine ⟨rfl, by decide, by decide⟩⟩
  | bool b =>
    cases b with
    | true =>
      exact ⟨'t', "rue".toList ++ R, by
        constructor
        · rw [show ((dumpsInd lvl (.bool true)).toList ++ R) =
            't' :: ("rue".toList ++ R) from rfl]
          rw [List.dropWhile_cons]
          simp [isJsonWs]
        · refine ⟨rfl, by decide, by decide⟩⟩
    | false =>
      exact ⟨'f', "alse".toList ++ R, by
        constructor
        · rw [show ((dumpsInd lvl (.bool false)).toList ++ R) =
            'f' :: ("alse".toList ++ R) from rfl]
          rw [List.dropWhile_cons]
          simp [isJsonWs]
        · refine ⟨rfl, by decide, by decide⟩⟩
  | num s => simp [goodJson] at hv
  | str s =>
    refine ⟨'"', escList s.toList ++ ['"'] ++ R, ?_, rfl, by decide, by decide⟩
    rw [show ((dumpsInd lvl (.str s)).toList ++ R) =
      '"' :: (escList s.toList ++ ['"'] ++ R) from by simp [dumpsInd, quoteStr]]
    rw [List.dropWhile_cons]
    simp [isJsonWs]
  | arr xs =>
    cases xs with
    | nil =>
      refine ⟨'[', ']' :: R, ?_, rfl, by decide, by decide⟩
      rw [show ((dumpsInd lvl (.arr [])).toList ++ R) = '[' :: (']' :: R) from rfl]
      rw [List.dropWhile_cons]
      simp [isJsonWs]
    | cons x xs =>
      refine ⟨'[', ?_, ?_, rfl, by decide, by decide⟩
      · exact ('\n' :: (pad (lvl + 1)).toList ++ (dumpsInd (lvl + 1) x).toList ++
          (dumpsIndElemsRest (lvl + 1) xs).toList ++ '\n' :: (pad lvl).toList ++
          [']']) ++ R
      · rw [show ((dumpsInd lvl (.arr (x :: xs))).toList ++ R) =
          '[' :: (('\n' :: (pad (lvl + 1)).toList ++ (dumpsInd (lvl + 1) x).toList ++
            (dumpsIndElemsRest (lvl + 1) xs).toList ++ '\n' :: (pad lvl).toList ++
            [']']) ++ R) from by
            simp [dumpsInd, dumpsIndArr, String.data_append]]
        rw [List.dropWhile_cons]
        simp [isJsonWs]
  | obj ms =>
    cases ms with
    | nil =>
      refine ⟨'\x7b', '\x7d' :: R, ?_, rfl, by decide, by decide⟩
      rw [show ((dumpsInd lvl (.obj [])).toList ++ R) =
        '\x7b' :: ('\x7d' :: R) from rfl]
      rw [List.dropWhile_cons]
      simp [isJsonWs]
    | cons m ms =>
      obtain ⟨k, v⟩ := m
      refine ⟨'\x7b', ?_, ?_, rfl, by decide, by decide⟩
      · exact ('\n' :: (pad (lvl + 1)).toList ++ (quoteStr k).toList ++
          ':' :: ' ' :: (dumpsInd (lvl + 1) v).toList ++
          (dumpsIndMembersRest (lvl + 1) ms).toList ++ '\n' :: (pad lvl).toList ++
          ['\x7d']) ++ R
      · rw [show ((dumpsInd lvl (.obj ((k, v) :: ms))).toList ++ R) =
          '\x7b' :: (('\n' :: (pad (lvl + 1)).toList ++ (quoteStr k).toList ++
            ':' :: ' ' :: (dumpsInd (lvl + 1) v).toList ++
            (dumpsIndMembersRest (lvl + 1) ms).toList ++ '\n' :: (pad lvl).toList ++
            ['\x7d']) ++ R) from by
            simp [dumpsInd, dumpsIndObj, String.data_append]]
        rw [List.dropWhile_cons]
        simp [isJsonWs]

theorem insertKV_fresh {α : Type} (acc : List (String × α)) (k : String) (v : α)
    (h : k ∉ acc.map Prod.fst) : insertKV acc k v = acc ++ [(k, v)] := by
  induction acc with
  | nil => rfl
  | cons p t ih =>
    obtain ⟨k2, v2⟩ := p
    simp only [List.map_cons, List.mem_cons, not_or] at h
    simp only [insertKV, if_neg (Ne.symm h.1), List.cons_append]
    rw [ih h.2]

theorem dropWhile_ws_cons (c : Char) (l : List Char) (hc : isJsonWs c = false) :
    (c :: l).dropWhile isJsonWs = c :: l := by
  rw [List.dropWhile_cons]
  simp [hc]

theorem roundtrip_core : ∀ n : Nat,
    (∀ v lvl f rest, goodJson v = true → jsonFuel v = n →
      parseVal (f + jsonFuel v) ((dumpsInd lvl v).toList ++ rest) =
        some (v, rest)) ∧
    (∀ x xs acc lvl f rest wsp wsc,
      (∀ c ∈ wsp, isJsonWs c = true) → (∀ c ∈ wsc, isJsonWs c = true) →
      goodJson x = true → goodJsonElems xs = true →
      1 + jsonFuel x + jsonFuelElems xs = n →
      parseElems (f + n) acc
        (wsp ++ (dumpsInd lvl x).toList ++ (dumpsIndElemsRest lvl xs).toList ++
          wsc ++ ']' :: rest) =
        some (.arr (acc ++ x :: xs), rest)) ∧
    (∀ k v ms acc lvl f rest wsp wsc,
      (∀ c ∈ wsp, isJsonWs c = true) → (∀ c ∈ wsc, isJsonWs c = true) →
      goodJson v = true → goodJsonMembers ms = true →
      (((k, v) :: ms).map Prod.fst).Nodup →
      (∀ key ∈ (((k, v) :: ms).map Prod.fst), key ∉ acc.map Prod.fst) →
      1 + jsonFuel v + jsonFuelMembers ms = n →
      parseMembers (f + n) acc
        (wsp ++ (quoteStr k).toList ++ ':' :: ' ' ::
          (dumpsInd lvl v).toList ++ (dumpsIndMembersRest lvl ms).toList ++
          wsc ++ '\x7d' :: rest) =
        some (.obj (acc ++ (k, v) :: ms), rest)) := by
  intro n
  induction n using Nat.strong_induction_on with
  | _ n IH =>
  refine ⟨?_, ?_, ?_⟩
  · -- one value
    intro v lvl f rest hv hn
    cases v with
    | num s => simp [goodJson] at hv
    | null => exact parseVal_null f rest
    | bool b =>
      cases b with
      | true => exact parseVal_true f rest
      | false => exact parseVal_false f rest
    | str s => exact parseVal_str f s rest
    | arr xs =>
      cases xs with
      | nil =>
        rw [show (dumpsInd lvl (.arr [])).toList ++ rest =
          '[' :: ']' :: rest from rfl]
        rw [show f + jsonFuel (.arr []) = f + 1 from rfl]
        conv_lhs => unfold parseVal
        rw [show ('[' :: ']' :: rest).dropWhile isJsonWs =
          '[' :: ']' :: rest from by
            rw [List.dropWhile_cons]
            simp [isJsonWs]]
        dsimp only
        rw [if_neg (by decide : ¬('[' : Char) = '"'),
          if_neg (by decide : ¬('[' : Char) = '\x7b'),
          if_pos (rfl : ('[' : Char) = '[')]
        rw [show (']' :: rest).dropWhile isJsonWs = ']' :: rest from by
          rw [List.dropWhile_cons]
          simp [isJsonWs]]
        rfl
      | cons x xs =>
        have hvb : goodJson x = true ∧ goodJsonElems xs = true := by
          simpa [goodJson, goodJsonElems, Bool.and_eq_true] using hv
        have hfe : jsonFuel (.arr (x :: xs)) =
            1 + (1 + jsonFuel x + jsonFuelElems xs) := by
          simp [jsonFuel, jsonFuelElems]
        rw [hfe]
        rw [show (dumpsInd lvl (.arr (x :: xs))).toList ++ rest =
          '[' :: ('\n' :: (pad (lvl + 1)).toList ++ ((dumpsInd (lvl + 1) x).toList ++
            ((dumpsIndElemsRest (lvl + 1) xs).toList ++ ('\n' :: (pad lvl).toList ++
            (']' :: rest))))) from by
            simp [dumpsInd, dumpsIndArr, String.data_append]]
        rw [show f + (1 + (1 + jsonFuel x + jsonFuelElems xs)) =
          (f + (1 + jsonFuel x + jsonFuelElems xs)) + 1 from by omega]
        conv_lhs => unfold parseVal
        rw [show ('[' :: ('\n' :: (pad (lvl + 1)).toList ++ ((dumpsInd (lvl + 1) x).toList ++
            ((dumpsIndElemsRest (lvl + 1) xs).toList ++ ('\n' :: (pad lvl).toList ++
            (']' :: rest)))))).dropWhile isJsonWs =
          '[' :: ('\n' :: (pad (lvl + 1)).toList ++ ((dumpsInd (lvl + 1) x).toList ++
            ((dumpsIndElemsRest (lvl + 1) xs).toList ++ ('\n' :: (pad lvl).toList ++
            (']' :: rest))))) from by
            rw [List.dropWhile_cons]
            simp [isJsonWs]]
        dsimp only
        rw [if_neg (by decide : ¬('[' : Char) = '"'),
          if_neg (by decide : ¬('[' : Char) = '\x7b'),
          if_pos (rfl : ('[' : Char) = '[')]
        rw [dropWhile_ws_append ('\n' :: (pad (lvl + 1)).toList) _ (nlpad_ws (lvl + 1))]
        obtain ⟨hd, tl, hdeq, hdws, hdnb, hdnc⟩ :=
          dumpsInd_head x (lvl + 1) hvb.1
            ((dumpsIndElemsRest (lvl + 1) xs).toList ++ ('\n' :: (pad lvl).toList ++
              (']' :: rest)))
        rw [hdeq]
        split
        next r2 heq =>
          exact absurd (List.head_eq_of_cons_eq heq.symm).symm hdnb
        next hne =>
          have happ := (IH (1 + jsonFuel x + jsonFuelElems xs) (by omega)).2.1
            x xs [] (lvl + 1) f rest ('\n' :: (pad (lvl + 1)).toList)
            ('\n' :: (pad lvl).toList) (nlpad_ws (lvl + 1)) (nlpad_ws lvl)
            hvb.1 hvb.2 rfl
          rw [show ('\n' :: (pad (lvl + 1)).toList ++ ((dumpsInd (lvl + 1) x).toList ++
            ((dumpsIndElemsRest (lvl + 1) xs).toList ++ ('\n' :: (pad lvl).toList ++
            (']' :: rest))))) =
            ('\n' :: (pad (lvl + 1)).toList ++ (dumpsInd (lvl + 1) x).toList ++
              (dumpsIndElemsRest (lvl + 1) xs).toList ++
              '\n' :: (pad lvl).toList ++ ']' :: rest) from by
              simp [List.append_assoc]]
          rw [happ]
          simp
    | obj ms =>
      cases ms with
      | nil =>
        rw [show (dumpsInd lvl (.obj [])).toList ++ rest =
          '\x7b' :: '\x7d' :: rest from rfl]
        rw [show f + jsonFuel (.obj []) = f + 1 from rfl]
        conv_lhs => unfold parseVal
        rw [show ('\x7b' :: '\x7d' :: rest).dropWhile isJsonWs =
          '\x7b' :: '\x7d' :: rest from by
            rw [List.dropWhile_cons]
            simp [isJsonWs]]
        dsimp only
        rw [if_neg (by decide : ¬('\x7b' : Char) = '"'),
          if_pos (rfl : ('\x7b' : Char) = '\x7b')]
        rw [show ('\x7d' :: rest).dropWhile isJsonWs = '\x7d' :: rest from by
          rw [List.dropWhile_cons]
          simp [isJsonWs]]
        rfl
      | cons m ms =>
        obtain ⟨k, v⟩ := m
        have hvb : goodJson v = true ∧ goodJsonMembers ms = true ∧
            (((k, v) :: ms).map Prod.fst).Nodup := by
          have h2 := hv
          simp only [goodJson, Bool.and_eq_true, decide_eq_true_eq] at h2
          have h3 : goodJson v = true ∧ goodJsonMembers ms = true := by
            simpa [goodJsonMembers, Bool.and_eq_true] using h2.1
          exact ⟨h3.1, h3.2, h2.2⟩
        have hfe : jsonFuel (.obj ((k, v) :: ms)) =
            1 + (1 + jsonFuel v + jsonFuelMembers ms) := by
          simp [jsonFuel, jsonFuelMembers]
        rw [hfe]
        rw [show (dumpsInd lvl (.obj ((k, v) :: ms))).toList ++ rest =
          '\x7b' :: ('\n' :: (pad (lvl + 1)).toList ++ ((quoteStr k).toList ++
            (':' :: ' ' :: ((dumpsInd (lvl + 1) v).toList ++
            ((dumpsIndMembersRest (lvl + 1) ms).toList ++ ('\n' :: (pad lvl).toList ++
            ('\x7d' :: rest))))))) from by
            simp [dumpsInd, dumpsIndObj, String.data_append]]
        rw [show f + (1 + (1 + jsonFuel v + jsonFuelMembers ms)) =
          (f + (1 + jsonFuel v + jsonFuelMembers ms)) + 1 from by omega]
        conv_lhs => unfold parseVal
        rw [show ('\x7b' :: ('\n' :: (pad (lvl + 1)).toList ++ ((quoteStr k).toList ++
            (':' :: ' ' :: ((dumpsInd (lvl + 1) v).toList ++
            ((dumpsIndMembersRest (lvl + 1) ms).toList ++ ('\n' :: (pad lvl).toList ++
            ('\x7d' :: rest)))))))).dropWhile isJsonWs =
          '\x7b' :: ('\n' :: (pad (lvl + 1)).toList ++ ((quoteStr k).toList ++
            (':' :: ' ' :: ((dumpsInd (lvl + 1) v).toList ++
            ((dumpsIndMembersRest (lvl + 1) ms).toList ++ ('\n' :: (pad lvl).toList ++
            ('\x7d' :: rest))))))) from by
            rw [List.dropWhile_cons]
            simp [isJsonWs]]
        dsimp only
        rw [if_neg (by decide : ¬('\x7b' : Char) = '"'),
          if_pos (rfl : ('\x7b' : Char) = '\x7b')]
        rw [dropWhile_ws_append ('\n' :: (pad (lvl + 1)).toList) _ (nlpad_ws (lvl + 1))]
        rw [show ((quoteStr k).toList ++
            (':' :: ' ' :: ((dumpsInd (lvl + 1) v).toList ++
            ((dumpsIndMembersRest (lvl + 1) ms).toList ++ ('\n' :: (pad lvl).toList ++
            ('\x7d' :: rest)))))).dropWhile isJsonWs =
          (quoteStr k).toList ++
            (':' :: ' ' :: ((dumpsInd (lvl + 1) v).toList ++
            ((dumpsIndMembersRest (lvl + 1) ms).toList ++ ('\n' :: (pad lvl).toList ++
            ('\x7d' :: rest))))) from by
            rw [show (quoteStr k).toList = '"' :: (escList k.toList ++ ['"']) from rfl]
            rw [List.cons_append, List.dropWhile_cons]
            simp [isJsonWs]]
        split
        next r2 heq =>
          rw [show (quoteStr k).toList = '"' :: (escList k.toList ++ ['"']) from rfl] at heq
          have hcontra : some '"' = some '\x7d' := by
            have h5 := congrArg List.head? heq
            simpa using h5
          exact absurd hcontra (by decide)
        next hne =>
          have happ := (IH (1 + jsonFuel v + jsonFuelMembers ms) (by omega)).2.2
            k v ms [] (lvl + 1) f rest ('\n' :: (pad (lvl + 1)).toList)
            ('\n' :: (pad lvl).toList) (nlpad_ws (lvl + 1)) (nlpad_ws lvl)
            hvb.1 hvb.2.1 hvb.2.2 (by simp) rfl
          rw [show ('\n' :: (pad (lvl + 1)).toList ++ ((quoteStr k).toList ++
            (':' :: ' ' :: ((dumpsInd (lvl + 1) v).toList ++
            ((dumpsIndMembersRest (lvl + 1) ms).toList ++ ('\n' :: (pad lvl).toList ++
            ('\x7d' :: rest))))))) =
            ('\n' :: (pad (lvl + 1)).toList ++ (quoteStr k).toList ++ ':' :: ' ' ::
              (dumpsInd (lvl + 1) v).toList ++
              (dumpsIndMembersRest (lvl + 1) ms).toList ++
              '\n' :: (pad lvl).toList ++ '\x7d' :: rest) from by
              simp [List.append_assoc]]
          rw [happ]
          simp
  · -- element loop
    intro x xs acc lvl f rest wsp wsc hwsp hwsc hx hxs hn
    cases xs with
    | nil =>
      subst hn
      rw [show f + (1 + jsonFuel x + jsonFuelElems []) = (f + jsonFuel x) + 1 from by
        simp only [jsonFuelElems]
        omega]
      conv_lhs => unfold parseElems
      simp only [List.append_assoc]
      rw [parseVal_ws _ wsp _ hwsp]
      rw [(IH (jsonFuel x) (by omega)).1 x lvl f _ hx rfl]
      dsimp only
      rw [show (dumpsIndElemsRest lvl []).toList = ([] : List Char) from rfl]
      simp only [List.nil_append]
      rw [dropWhile_ws_append wsc _ hwsc]
      rw [show (']' :: rest).dropWhile isJsonWs = ']' :: rest from by
        rw [List.dropWhile_cons]
        simp [isJsonWs]]
      simp
    | cons y ys =>
      subst hn
      rw [show f + (1 + jsonFuel x + jsonFuelElems (y :: ys)) =
        (f + jsonFuel x + jsonFuelElems (y :: ys)) + 1 from by omega]
      conv_lhs => unfold parseElems
      simp only [List.append_assoc]
      rw [parseVal_ws _ wsp _ hwsp]
      rw [show f + jsonFuel x + jsonFuelElems (y :: ys) =
        (f + jsonFuelElems (y :: ys)) + jsonFuel x from by omega]
      rw [(IH (jsonFuel x) (by omega)).1 x lvl (f + jsonFuelElems (y :: ys)) _ hx rfl]
      dsimp only
      rw [show (dumpsIndElemsRest lvl (y :: ys)).toList =
        ',' :: '\n' :: ((pad lvl).toList ++ ((dumpsInd lvl y).toList ++
          (dumpsIndElemsRest lvl ys).toList)) from by
          simp [dumpsIndElemsRest, String.data_append]]
      rw [show ((',' :: '\n' :: ((pad lvl).toList ++ ((dumpsInd lvl y).toList ++
          (dumpsIndElemsRest lvl ys).toList))) ++ (wsc ++ ']' :: rest)).dropWhile isJsonWs =
        ',' :: ('\n' :: ((pad lvl).toList ++ ((dumpsInd lvl y).toList ++
          (dumpsIndElemsRest lvl ys).toList)) ++ (wsc ++ ']' :: rest)) from by
          rw [List.cons_append, List.dropWhile_cons]
          simp [isJsonWs]]
      have hgood : goodJson y = true ∧ goodJsonElems ys = true := by
        simpa [goodJsonElems, Bool.and_eq_true] using hxs
      have happ := (IH (1 + jsonFuel y + jsonFuelElems ys)
          (by simp only [jsonFuelElems]; omega)).2.1
        y ys (acc ++ [x]) lvl (f + jsonFuel x) rest
        ('\n' :: (pad lvl).toList) wsc (nlpad_ws lvl) hwsc hgood.1 hgood.2 rfl
      simp only [List.cons_append, List.append_assoc] at happ
      rw [show (f + jsonFuelElems (y :: ys)) + jsonFuel x =
        (f + jsonFuel x) + (1 + jsonFuel y + jsonFuelElems ys) from by
          simp only [jsonFuelElems]
          omega]
      simp only [List.cons_append, List.append_assoc]
      rw [happ]
      simp
  · -- member loop
    intro k v ms acc lvl f rest wsp wsc hwsp hwsc hv hms hnd hdisj hn
    have hk : k ∉ acc.map Prod.fst := hdisj k (by simp)
    cases ms with
    | nil =>
      subst hn
      rw [show f + (1 + jsonFuel v + jsonFuelMembers []) = (f + jsonFuel v) + 1 from by
        simp only [jsonFuelMembers]
        omega]
      conv_lhs => unfold parseMembers
      rw [show (dumpsIndMembersRest lvl []).toList = ([] : List Char) from rfl]
      rw [show (quoteStr k).toList = '"' :: (escList k.toList ++ ['"']) from rfl]
      simp only [List.cons_append, List.append_assoc, List.nil_append]
      rw [dropWhile_ws_append wsp _ hwsp]
      rw [dropWhile_ws_cons '"' _ (by decide)]
      simp only []
      rw [parseStringAt_round]
      dsimp only
      rw [dropWhile_ws_cons ':' _ (by decide)]
      simp only []
      rw [show (' ' :: ((dumpsInd lvl v).toList ++ (wsc ++ '\x7d' :: rest))) =
        [' '] ++ ((dumpsInd lvl v).toList ++ (wsc ++ '\x7d' :: rest)) from rfl]
      rw [parseVal_ws _ [' '] _ (by decide)]
      rw [(IH (jsonFuel v) (by omega)).1 v lvl f _ hv rfl]
      dsimp only
      rw [dropWhile_ws_append wsc _ hwsc]
      rw [dropWhile_ws_cons '\x7d' _ (by decide)]
      simp only [insertKV_fresh acc k v hk]
    | cons m ms2 =>
      obtain ⟨k2, v2⟩ := m
      subst hn
      rw [show f + (1 + jsonFuel v + jsonFuelMembers ((k2, v2) :: ms2)) =
        (f + jsonFuel v + jsonFuelMembers ((k2, v2) :: ms2)) + 1 from by omega]
      conv_lhs => unfold parseMembers
      rw [show (quoteStr k).toList = '"' :: (escList k.toList ++ ['"']) from rfl]
      simp only [List.cons_append, List.append_assoc, List.nil_append]
      rw [dropWhile_ws_append wsp _ hwsp]
      rw [dropWhile_ws_cons '"' _ (by decide)]
      simp only []
      rw [parseStringAt_round]
      dsimp only
      rw [dropWhile_ws_cons ':' _ (by decide)]
      simp only []
      rw [show (' ' :: ((dumpsInd lvl v).toList ++
          ((dumpsIndMembersRest lvl ((k2, v2) :: ms2)).toList ++ (wsc ++ '\x7d' :: rest)))) =
        [' '] ++ ((dumpsInd lvl v).toList ++
          ((dumpsIndMembersRest lvl ((k2, v2) :: ms2)).toList ++ (wsc ++ '\x7d' :: rest))) from rfl]
      rw [parseVal_ws _ [' '] _ (by decide)]
      rw [show f + jsonFuel v + jsonFuelMembers ((k2, v2) :: ms2) =
        (f + jsonFuelMembers ((k2, v2) :: ms2)) + jsonFuel v from by omega]
      rw [(IH (jsonFuel v) (by omega)).1 v lvl (f + jsonFuelMembers ((k2, v2) :: ms2)) _ hv rfl]
      dsimp only
      rw [show (dumpsIndMembersRest lvl ((k2, v2) :: ms2)).toList =
        ',' :: '\n' :: ((pad lvl).toList ++ ((quoteStr k2).toList ++
          (':' :: ' ' :: ((dumpsInd lvl v2).toList ++
            (dumpsIndMembersRest lvl ms2).toList)))) from by
          simp [dumpsIndMembersRest, String.data_append]]
      simp only [List.cons_append, List.append_assoc]
      rw [dropWhile_ws_cons ',' _ (by decide)]
      have hgood : goodJson v2 = true ∧ goodJsonMembers ms2 = true := by
        simpa [goodJsonMembers, Bool.and_eq_true] using hms
      have hnd2 : (((k2, v2) :: ms2).map Prod.fst).Nodup := by
        simp only [List.map_cons] at hnd ⊢
        exact hnd.of_cons
      have hdisj2 : ∀ key ∈ ((k2, v2) :: ms2).map Prod.fst,
          key ∉ (insertKV acc k v).map Prod.fst := by
        intro key hkey
        rw [insertKV_fresh acc k v hk]
        simp only [List.map_append, List.map_cons, List.map_nil, List.mem_append,
          List.mem_cons, List.not_mem_nil, or_false, not_or]
        refine ⟨hdisj key (List.mem_cons_of_mem _ hkey), ?_⟩
        intro hkk
        subst hkk
        simp only [List.map_cons, List.nodup_cons] at hnd
        exact hnd.1 hkey
      have happ := (IH (1 + jsonFuel v2 + jsonFuelMembers ms2)
          (by simp only [jsonFuelMembers]; omega)).2.2
        k2 v2 ms2 (insertKV acc k v) lvl (f + jsonFuel v) rest
        ('\n' :: (pad lvl).toList) wsc (nlpad_ws lvl) hwsc
        hgood.1 hgood.2 hnd2 hdisj2 rfl
      simp only [List.cons_append, List.append_assoc] at happ
      rw [show (f + jsonFuelMembers ((k2, v2) :: ms2)) + jsonFuel v =
        (f + jsonFuel v) + (1 + jsonFuel v2 + jsonFuelMembers ms2) from by
          simp only [jsonFuelMembers]
          omega]
      simp only [List.cons_append, List.append_assoc]
      rw [happ]
      rw [insertKV_fresh acc k v hk]
      simp

theorem fuel_le_core : ∀ n : Nat,
    (∀ v lvl, goodJson v = true → jsonFuel v = n →
      jsonFuel v ≤ (dumpsInd lvl v).length) ∧
    (∀ xs lvl, goodJsonElems xs = true → jsonFuelElems xs = n →
      jsonFuelElems xs ≤ (dumpsIndElemsRest lvl xs).length) ∧
    (∀ ms lvl, goodJsonMembers ms = true → jsonFuelMembers ms = n →
      jsonFuelMembers ms ≤ (dumpsIndMembersRest lvl ms).length) := by
  intro n
  induction n using Nat.strong_induction_on with
  | _ n IH =>
  refine ⟨?_, ?_, ?_⟩
  · intro v lvl hv hn
    cases v with
    | null =>
      rw [show dumpsInd lvl .null = "null" from by simp [dumpsInd],
        show ("null" : String).length = 4 from rfl,
        show jsonFuel .null = 1 from by simp [jsonFuel]]
      omega
    | bool b =>
      cases b with
      | true =>
        rw [show dumpsInd lvl (.bool true) = "true" from by simp [dumpsInd],
          show ("true" : String).length = 4 from rfl,
          show jsonFuel (.bool true) = 1 from by simp [jsonFuel]]
        omega
      | false =>
        rw [show dumpsInd lvl (.bool false) = "false" from by simp [dumpsInd],
          show ("false" : String).length = 5 from rfl,
          show jsonFuel (.bool false) = 1 from by simp [jsonFuel]]
        omega
    | num s => simp [goodJson] at hv
    | str s =>
      rw [show dumpsInd lvl (.str s) = quoteStr s from by simp [dumpsInd]]
      rw [show (quoteStr s).length = (escList s.toList).length + 2 from by
        rw [show (quoteStr s).length = (quoteStr s).toList.length from rfl]
        rw [show (quoteStr s).toList = '"' :: (escList s.toList ++ ['"']) from rfl]
        simp]
      rw [show jsonFuel (.str s) = 1 from by simp [jsonFuel]]
      omega
    | arr xs =>
      cases xs with
      | nil =>
        rw [show dumpsInd lvl (.arr []) = "[]" from by
          simp [dumpsInd, dumpsIndArr],
          show ("[]" : String).length = 2 from rfl,
          show jsonFuel (.arr []) = 1 from by simp [jsonFuel, jsonFuelElems]]
        omega
      | cons x xs =>
        have hb : goodJson x = true ∧ goodJsonElems xs = true := by
          simpa [goodJson, goodJsonElems, Bool.and_eq_true] using hv
        subst hn
        have h1 := (IH (jsonFuel x)
          (by simp only [jsonFuel, jsonFuelElems]; omega)).1 x (lvl + 1) hb.1 rfl
        have h2 := (IH (jsonFuelElems xs)
          (by simp only [jsonFuel, jsonFuelElems]; omega)).2.1 xs (lvl + 1) hb.2 rfl
        have hlen : (dumpsInd lvl (.arr (x :: xs))).length =
            2 + (pad (lvl + 1)).length + (dumpsInd (lvl + 1) x).length +
            ((dumpsIndElemsRest (lvl + 1) xs).length + (1 + ((pad lvl).length + 1))) := by
          simp [dumpsInd, dumpsIndArr, String.length_append]
          rw [show ("[\n" : String).length = 2 from rfl,
            show ("\n" : String).length = 1 from rfl,
            show ("]" : String).length = 1 from rfl]
          omega
        rw [hlen]
        simp only [jsonFuel, jsonFuelElems]
        omega
    | obj ms =>
      cases ms with
      | nil =>
        rw [show dumpsInd lvl (.obj []) = "\x7b\x7d" from by
          simp [dumpsInd, dumpsIndObj],
          show ("\x7b\x7d" : String).length = 2 from rfl,
          show jsonFuel (.obj []) = 1 from by simp [jsonFuel, jsonFuelMembers]]
        omega
      | cons m ms =>
        obtain ⟨k, v⟩ := m
        have hb : goodJson v = true ∧ goodJsonMembers ms = true := by
          have h2 := hv
          simp only [goodJson, Bool.and_eq_true, decide_eq_true_eq] at h2
          simpa [goodJsonMembers, Bool.and_eq_true] using h2.1
        subst hn
        have h1 := (IH (jsonFuel v)
          (by simp only [jsonFuel, jsonFuelMembers]; omega)).1 v (lvl + 1) hb.1 rfl
        have h2 := (IH (jsonFuelMembers ms)
          (by simp only [jsonFuel, jsonFuelMembers]; omega)).2.2 ms (lvl + 1) hb.2 rfl
        have hlen : (dumpsInd lvl (.obj ((k, v) :: ms))).length =
            2 + (pad (lvl + 1)).length + (quoteStr k).length +
            (2 + ((dumpsInd (lvl + 1) v).length +
              ((dumpsIndMembersRest (lvl + 1) ms).length +
                (1 + ((pad lvl).length + 1))))) := by
          simp [dumpsInd, dumpsIndObj, String.length_append]
          rw [show ("\x7b\n" : String).length = 2 from rfl,
            show (": " : String).length = 2 from rfl,
            show ("\n" : String).length = 1 from rfl,
            show ("\x7d" : String).length = 1 from rfl]
          omega
        rw [hlen]
        simp only [jsonFuel, jsonFuelMembers]
        omega
  · intro xs lvl hxs hn
    cases xs with
    | nil => simp [jsonFuelElems, dumpsIndElemsRest]
    | cons y ys =>
      have hb : goodJson y = true ∧ goodJsonElems ys = true := by
        simpa [goodJsonElems, Bool.and_eq_true] using hxs
      subst hn
      have h1 := (IH (jsonFuel y)
        (by simp only [jsonFuelElems]; omega)).1 y lvl hb.1 rfl
      have h2 := (IH (jsonFuelElems ys)
        (by simp only [jsonFuelElems]; omega)).2.1 ys lvl hb.2 rfl
      have hlen : (dumpsIndElemsRest lvl (y :: ys)).length =
          2 + (pad lvl).length + ((dumpsInd lvl y).length +
            (dumpsIndElemsRest lvl ys).length) := by
        simp [dumpsIndElemsRest, String.length_append]
        rw [show (",\n" : String).length = 2 from rfl]
        omega
      rw [hlen]
      simp only [jsonFuelElems]
      omega
  · intro ms lvl hms hn
    cases ms with
    | nil => simp [jsonFuelMembers, dumpsIndMembersRest]
    | cons m ms =>
      obtain ⟨k, v⟩ := m
      have hb : goodJson v = true ∧ goodJsonMembers ms = true := by
        simpa [goodJsonMembers, Bool.and_eq_true] using hms
      subst hn
      have h1 := (IH (jsonFuel v)
        (by simp only [jsonFuelMembers]; omega)).1 v lvl hb.1 rfl
      have h2 := (IH (jsonFuelMembers ms)
        (by simp only [jsonFuelMembers]; omega)).2.2 ms lvl hb.2 rfl
      have hlen : (dumpsIndMembersRest lvl ((k, v) :: ms)).length =
          2 + (pad lvl).length + ((quoteStr k).length +
            (2 + ((dumpsInd lvl v).length +
              (dumpsIndMembersRest lvl ms).length))) := by
        simp [dumpsIndMembersRest, String.length_append]
        rw [show (",\n" : String).length = 2 from rfl,
          show (": " : String).length = 2 from rfl]
        omega
      rw [hlen]
      simp only [jsonFuelMembers]
      omega

theorem dumps_loads_roundtrip (v : Json) (hv : goodJson v = true) :
    jsonLoads (dumpsInd4 v) = some v := by
  unfold jsonLoads dumpsInd4
  have hle := (fuel_le_core (jsonFuel v)).1 v 0 hv rfl
  obtain ⟨f, hf⟩ : ∃ f, (dumpsInd 0 v).length + 1 = f + jsonFuel v :=
    ⟨(dumpsInd 0 v).length + 1 - jsonFuel v, by omega⟩
  rw [show (dumpsInd 0 v).toList = (dumpsInd 0 v).toList ++ [] from by simp]
  rw [hf]
  rw [(roundtrip_core (jsonFuel v)).1 v 0 f [] hv rfl]
  simp

theorem goodJson_param (p : ParamSchema) :
    goodJson (ParamSchema.toJson p) = true := by
  simp [ParamSchema.toJson, goodJson, goodJsonMembers]

theorem goodJsonElems_params (l : List ParamSchema) :
    goodJsonElems (l.map ParamSchema.toJson) = true := by
  induction l with
  | nil => rfl
  | cons p t ih => simp [goodJsonElems, goodJson_param, ih]

theorem goodJson_toJson (s : ToolSchema) :
    goodJson (ToolSchema.toJson s) = true := by
  simp [ToolSchema.toJson, goodJson, goodJsonMembers, goodJsonElems_params]

theorem goodJsonElems_tools (l : List (String × ToolSchema)) :
    goodJsonElems (l.map (fun p => p.2.toJson)) = true := by
  induction l with
  | nil => rfl
  | cons p t ih => simp [goodJsonElems, goodJson_toJson, ih]

/-- Claim C5: for a registry with at least one registered tool,
`get_tools_for_prompt` returns a valid JSON serialization — `json.loads`
recovers exactly the array with one entry per registered tool, each entry
the tool's schema object with the keys `tool_name`, `description`,
`parameters` in that order (see `ToolSchema.toJson`); for an empty registry
it returns the sentinel `"No tools available."` instead. -/
theorem claim_C5_describe_valid (tm : ToolManager) :
    (tm.tools_schema ≠ [] →
      jsonLoads tm.get_tools_for_prompt =
        some (.arr (tm.tools_schema.map (fun p => p.2.toJson)))) ∧
    (tm.tools_schema = [] → tm.get_tools_for_prompt = "No tools available.") := by
  constructor
  · intro hne
    rw [show tm.get_tools_for_prompt =
      dumpsInd4 (.arr (tm.tools_schema.map (fun p => p.2.toJson))) from by
        unfold ToolManager.get_tools_for_prompt
        rw [if_neg (by simpa [List.isEmpty_iff] using hne)]]
    exact dumps_loads_roundtrip _ (by
      simpa [goodJson] using goodJsonElems_tools tm.tools_schema)
  · intro he
    unfold ToolManager.get_tools_for_prompt
    rw [if_pos (by simpa [List.isEmpty_iff] using he)]

theorem claim_C5_describe_valid_witness :
    weatherManager.tools_schema ≠ [] ∧
    jsonLoads weatherManager.get_tools_for_prompt =
      some (.arr (weatherManager.tools_schema.map (fun p => p.2.toJson))) := by
  have hne : weatherManager.tools_schema ≠ [] := by
    rw [show weatherManager.tools_schema =
      [("get_weather", buildSchema get_weather_decl)] from rfl]
    exact List.cons_ne_nil _ _
  exact ⟨hne, (claim_C5_describe_valid weatherManager).1 hne⟩
